import Mathlib

/-!
Verification of the storage-and-concurrency core of the CMU 15-445 BusTub
variant in this repository: the multi-granularity lock manager
(src/concurrency/lock_manager.cpp), the LRU-K replacer
(src/buffer/lru_k_replacer.cpp), the buffer pool manager
(src/buffer/buffer_pool_manager_instance.cpp) and the B+-tree index
(src/storage/index/b_plus_tree.cpp and the leaf/internal page code).

Each C++ function is shallowly embedded as an executable Lean function over a
state record mirroring the corresponding C++ data; machine integers are
modelled as `Int`/`Nat` (no arithmetic here comes near the 32-bit range),
fallible paths return sum types, and null-pointer dereferences are modelled
as explicit error values.
-/

namespace LockMgr

/-- Lock modes of the lock manager (LockManager::LockMode). -/
inductive LockMode where
  | intentionShared
  | intentionExclusive
  | shared
  | sharedIntentionExclusive
  | exclusive
deriving DecidableEq, Repr

/-- Transaction states (TransactionState). -/
inductive TxnState where
  | growing
  | shrinking
  | committed
  | aborted
deriving DecidableEq, Repr

/-- Isolation levels (IsolationLevel). -/
inductive IsoLevel where
  | readUncommitted
  | readCommitted
  | repeatableRead
deriving DecidableEq, Repr

/-- Abort reasons thrown via TransactionAbortException (AbortReason). -/
inductive AbortReason where
  | lockOnShrinking
  | lockSharedOnReadUncommitted
  | upgradeConflict
  | incompatibleUpgrade
  | attemptedUnlockButNoLockHeld
  | tableUnlockedBeforeUnlockingRows
  | attemptedIntentionLockOnRow
  | tableLockNotPresent
deriving DecidableEq, Repr

/-- INVALID_TXN_ID from common/config.h. -/
def INVALID_TXN_ID : Int := -1

/-- One entry of a LockRequestQueue (LockManager::LockRequest): transaction id,
requested mode, the table oid, the row id (unused for table requests), and the
granted flag. -/
structure LockRequest where
  txnId : Int
  mode : LockMode
  oid : Int
  rid : Int
  granted : Bool
deriving DecidableEq, Repr

/-- A per-resource request queue (LockManager::LockRequestQueue): the FIFO list
of requests and the `upgrading_` transaction id. -/
structure LockRequestQueue where
  requests : List LockRequest
  upgrading : Int
deriving DecidableEq, Repr

/-- The transaction bookkeeping the lock manager reads and writes
(concurrency/transaction.h): id, state, isolation level, the five table lock
sets and the two per-table row lock sets. -/
structure Txn where
  txnId : Int
  state : TxnState
  iso : IsoLevel
  sharedTableLockSet : List Int
  exclusiveTableLockSet : List Int
  intentionSharedTableLockSet : List Int
  intentionExclusiveTableLockSet : List Int
  sharedIntentionExclusiveTableLockSet : List Int
  sharedRowLockSet : List (Int × List Int)
  exclusiveRowLockSet : List (Int × List Int)
deriving DecidableEq, Repr

/-- Transaction::SetState(ABORTED), as done before every throw of
TransactionAbortException. -/
def setAborted (t : Txn) : Txn := { t with state := TxnState.aborted }

/-- Insertion into an unordered_set modelled as a duplicate-free list. -/
def setInsert (s : List Int) (a : Int) : List Int :=
  if s.contains a then s else a :: s

/-- unordered_set::erase modelled on a list. -/
def setErase (s : List Int) (a : Int) : List Int := s.erase a

/-- Map update used by InsertRowLockSet: add `rid` to the bucket of `oid`. -/
def rowSetInsert (s : List (Int × List Int)) (oid rid : Int) : List (Int × List Int) :=
  match s with
  | [] => [(oid, [rid])]
  | (o, rids) :: rest =>
      if o == oid then (o, setInsert rids rid) :: rest
      else (o, rids) :: rowSetInsert rest oid rid

/-- Map update used by DeleteRowLockSet: remove `rid` from the bucket of `oid`. -/
def rowSetErase (s : List (Int × List Int)) (oid rid : Int) : List (Int × List Int) :=
  match s with
  | [] => []
  | (o, rids) :: rest =>
      if o == oid then (o, setErase rids rid) :: rest
      else (o, rids) :: rowSetErase rest oid rid

/-- LockManager::InsertOrDeleteTableLockSet (lock_manager.cpp:370-409). -/
def insertOrDeleteTableLockSet (t : Txn) (r : LockRequest) (ins : Bool) : Txn :=
  match r.mode with
  | LockMode.shared =>
      if ins then { t with sharedTableLockSet := setInsert t.sharedTableLockSet r.oid }
      else { t with sharedTableLockSet := setErase t.sharedTableLockSet r.oid }
  | LockMode.exclusive =>
      if ins then { t with exclusiveTableLockSet := setInsert t.exclusiveTableLockSet r.oid }
      else { t with exclusiveTableLockSet := setErase t.exclusiveTableLockSet r.oid }
  | LockMode.intentionShared =>
      if ins then { t with intentionSharedTableLockSet := setInsert t.intentionSharedTableLockSet r.oid }
      else { t with intentionSharedTableLockSet := setErase t.intentionSharedTableLockSet r.oid }
  | LockMode.intentionExclusive =>
      if ins then { t with intentionExclusiveTableLockSet := setInsert t.intentionExclusiveTableLockSet r.oid }
      else { t with intentionExclusiveTableLockSet := setErase t.intentionExclusiveTableLockSet r.oid }
  | LockMode.sharedIntentionExclusive =>
      if ins then { t with sharedIntentionExclusiveTableLockSet := setInsert t.sharedIntentionExclusiveTableLockSet r.oid }
      else { t with sharedIntentionExclusiveTableLockSet := setErase t.sharedIntentionExclusiveTableLockSet r.oid }

/-- LockManager::InsertOrDeleteRowLockSet (lock_manager.cpp:346-369). -/
def insertOrDeleteRowLockSet (t : Txn) (r : LockRequest) (ins : Bool) : Txn :=
  match r.mode with
  | LockMode.shared =>
      if ins then { t with sharedRowLockSet := rowSetInsert t.sharedRowLockSet r.oid r.rid }
      else { t with sharedRowLockSet := rowSetErase t.sharedRowLockSet r.oid r.rid }
  | LockMode.exclusive =>
      if ins then { t with exclusiveRowLockSet := rowSetInsert t.exclusiveRowLockSet r.oid r.rid }
      else { t with exclusiveRowLockSet := rowSetErase t.exclusiveRowLockSet r.oid r.rid }
  | _ => t

/-- The transaction-state / isolation-level gate at the top of both
LockManager::LockTable (lock_manager.cpp:29-59) and LockManager::LockRow
(lock_manager.cpp:205-235): the abort reason it raises, if any. -/
def isolationCheck (st : TxnState) (iso : IsoLevel) (m : LockMode) : Option AbortReason :=
  if st = TxnState.shrinking then
    if iso = IsoLevel.repeatableRead then some AbortReason.lockOnShrinking
    else if iso = IsoLevel.readCommitted then
      if m ≠ LockMode.shared ∧ m ≠ LockMode.intentionShared then
        some AbortReason.lockOnShrinking
      else none
    else
      if m = LockMode.intentionExclusive ∨ m = LockMode.exclusive then
        some AbortReason.lockOnShrinking
      else if m = LockMode.intentionShared ∨ m = LockMode.shared then
        some AbortReason.lockSharedOnReadUncommitted
      else none
  else if st = TxnState.growing then
    if iso = IsoLevel.readUncommitted then
      if m = LockMode.shared ∨ m = LockMode.intentionShared ∨
          m = LockMode.sharedIntentionExclusive then
        some AbortReason.lockSharedOnReadUncommitted
      else none
    else none
  else none

/-- The condition guarding the INCOMPATIBLE_UPGRADE abort in LockTable
(lock_manager.cpp:78-85), transcribed literally: true when the upgrade from
`oldMode` to `m` is NOT one of the allowed paths. -/
def upgradeIncompatibleTable (oldMode m : LockMode) : Bool :=
  (!(oldMode == LockMode.intentionShared) ||
    (!(m == LockMode.shared) && !(m == LockMode.exclusive) &&
     !(m == LockMode.intentionExclusive) && !(m == LockMode.sharedIntentionExclusive))) &&
  (!(oldMode == LockMode.shared) ||
    (!(m == LockMode.exclusive) && !(m == LockMode.sharedIntentionExclusive))) &&
  (!(oldMode == LockMode.intentionExclusive) ||
    (!(m == LockMode.exclusive) && !(m == LockMode.sharedIntentionExclusive))) &&
  (!(oldMode == LockMode.sharedIntentionExclusive) || !(m == LockMode.exclusive))

/-- The mode-compatibility switch shared by LockManager::GrantLock
(lock_manager.cpp:415-441 and 449-475) and LockManager::IsCompatible
(lock_manager.cpp:528-559): is a request of mode `reqMode` compatible with an
occupied request of mode `heldMode`. -/
def compatibleWith (reqMode heldMode : LockMode) : Bool :=
  match reqMode with
  | LockMode.shared =>
      !(heldMode == LockMode.sharedIntentionExclusive || heldMode == LockMode.exclusive)
  | LockMode.exclusive => false
  | LockMode.intentionShared => !(heldMode == LockMode.exclusive)
  | LockMode.intentionExclusive =>
      !(heldMode == LockMode.shared || heldMode == LockMode.sharedIntentionExclusive ||
        heldMode == LockMode.exclusive)
  | LockMode.sharedIntentionExclusive => heldMode == LockMode.intentionShared

/-- LockManager::GrantLock (lock_manager.cpp:411-485). The C++ walks the queue
comparing the candidate request by pointer identity; here the candidate is
identified by its position `selfIdx`, and `i` is the position of the head of
the remaining list. Returns false when the loop runs off the end, exactly as
line 484 does. -/
def grantLock (m : LockMode) (selfIdx : Nat) (upgrading : Bool) :
    List LockRequest → Nat → Bool
  | [], _ => false
  | r :: rest, i =>
      if r.granted then
        if compatibleWith m r.mode then grantLock m selfIdx upgrading rest (i + 1)
        else false
      else if i == selfIdx then true
      else if upgrading then true
      else if compatibleWith m r.mode then grantLock m selfIdx upgrading rest (i + 1)
      else false

/-- The scan at lock_manager.cpp:67 / 243 that looks for an existing request of
the calling transaction: first matching request together with its index. -/
def findTxnRequest (t : Int) : List LockRequest → Nat → Option (Nat × LockRequest)
  | [], _ => none
  | r :: rest, i => if r.txnId == t then some (i, r) else findTxnRequest t rest (i + 1)

/-- Outcome of one LockTable / LockRow call, up to its first suspension:
`logicError` models the std::logic_error throw for an ABORTED/COMMITTED caller,
`abort` a TransactionAbortException (the transaction is marked ABORTED),
`success` a `return true` path, and `waiting` the state after the request has
been enqueued and the first GrantLock check has come back false, i.e. the
thread is blocked on the queue's condition variable. -/
inductive LockResult where
  | logicError
  | abort (reason : AbortReason) (txn : Txn)
  | success (txn : Txn) (q : LockRequestQueue)
  | waiting (txn : Txn) (q : LockRequestQueue)
deriving DecidableEq, Repr

/-- LockManager::LockTable (lock_manager.cpp:25-131). -/
def lockTable (txn : Txn) (m : LockMode) (oid : Int) (q : LockRequestQueue) : LockResult :=
  if txn.state = TxnState.aborted ∨ txn.state = TxnState.committed then
    LockResult.logicError
  else
    match isolationCheck txn.state txn.iso m with
    | some r => LockResult.abort r (setAborted txn)
    | none =>
        match findTxnRequest txn.txnId q.requests 0 with
        | some (i, old) =>
            if old.mode = m then LockResult.success txn q
            else if q.upgrading ≠ INVALID_TXN_ID then
              LockResult.abort AbortReason.upgradeConflict (setAborted txn)
            else if upgradeIncompatibleTable old.mode m then
              LockResult.abort AbortReason.incompatibleUpgrade (setAborted txn)
            else
              let reqs1 := q.requests.eraseIdx i
              let txn1 := insertOrDeleteTableLockSet txn old false
              let newReq : LockRequest := ⟨txn.txnId, m, oid, 0, false⟩
              let reqs2 := reqs1 ++ [newReq]
              let selfIdx := reqs1.length
              if grantLock m selfIdx true reqs2 0 then
                LockResult.success
                  (insertOrDeleteTableLockSet txn1 { newReq with granted := true } true)
                  ⟨reqs1 ++ [{ newReq with granted := true }], INVALID_TXN_ID⟩
              else
                LockResult.waiting txn1 ⟨reqs2, q.upgrading⟩
        | none =>
            let newReq : LockRequest := ⟨txn.txnId, m, oid, 0, false⟩
            let reqs2 := q.requests ++ [newReq]
            let selfIdx := q.requests.length
            if grantLock m selfIdx false reqs2 0 then
              LockResult.success
                (insertOrDeleteTableLockSet txn { newReq with granted := true } true)
                ⟨q.requests ++ [{ newReq with granted := true }], q.upgrading⟩
            else
              LockResult.waiting txn ⟨reqs2, q.upgrading⟩

/-- The condition guarding the INCOMPATIBLE_UPGRADE abort in LockRow
(lock_manager.cpp:254): only SHARED → EXCLUSIVE is an allowed row upgrade. -/
def upgradeIncompatibleRow (oldMode m : LockMode) : Bool :=
  !(oldMode == LockMode.shared) || !(m == LockMode.exclusive)

/-- LockManager::LockRow (lock_manager.cpp:183-302). Note that the function
never consults the caller's table lock sets: there is no
TABLE_LOCK_NOT_PRESENT check anywhere in its body. -/
def lockRow (txn : Txn) (m : LockMode) (oid : Int) (rid : Int) (q : LockRequestQueue) :
    LockResult :=
  if txn.state = TxnState.aborted ∨ txn.state = TxnState.committed then
    LockResult.logicError
  else if m = LockMode.intentionExclusive ∨ m = LockMode.intentionShared ∨
      m = LockMode.sharedIntentionExclusive then
    LockResult.abort AbortReason.attemptedIntentionLockOnRow (setAborted txn)
  else
    match isolationCheck txn.state txn.iso m with
    | some r => LockResult.abort r (setAborted txn)
    | none =>
        match findTxnRequest txn.txnId q.requests 0 with
        | some (i, old) =>
            if old.mode = m then LockResult.success txn q
            else if q.upgrading ≠ INVALID_TXN_ID then
              LockResult.abort AbortReason.upgradeConflict (setAborted txn)
            else if upgradeIncompatibleRow old.mode m then
              LockResult.abort AbortReason.incompatibleUpgrade (setAborted txn)
            else
              let reqs1 := q.requests.eraseIdx i
              let txn1 := insertOrDeleteRowLockSet txn old false
              let newReq : LockRequest := ⟨txn.txnId, m, oid, rid, false⟩
              let reqs2 := reqs1 ++ [newReq]
              let selfIdx := reqs1.length
              if grantLock m selfIdx true reqs2 0 then
                LockResult.success
                  (insertOrDeleteRowLockSet txn1 { newReq with granted := true } true)
                  ⟨reqs1 ++ [{ newReq with granted := true }], INVALID_TXN_ID⟩
              else
                LockResult.waiting txn1 ⟨reqs2, q.upgrading⟩
        | none =>
            let newReq : LockRequest := ⟨txn.txnId, m, oid, rid, false⟩
            let reqs2 := q.requests ++ [newReq]
            let selfIdx := q.requests.length
            if grantLock m selfIdx false reqs2 0 then
              LockResult.success
                (insertOrDeleteRowLockSet txn { newReq with granted := true } true)
                ⟨q.requests ++ [{ newReq with granted := true }], q.upgrading⟩
            else
              LockResult.waiting txn ⟨reqs2, q.upgrading⟩

/-- A transaction with empty lock sets, used to build concrete scenarios. -/
def mkTxn (id : Int) (st : TxnState) (iso : IsoLevel) : Txn :=
  ⟨id, st, iso, [], [], [], [], [], [], []⟩

/-- Predicate for claim C1: the caller holds one of X, IX, SIX on table `oid`. -/
def holdsParentLockForRowX (t : Txn) (oid : Int) : Bool :=
  t.exclusiveTableLockSet.contains oid || t.intentionExclusiveTableLockSet.contains oid ||
    t.sharedIntentionExclusiveTableLockSet.contains oid

end LockMgr

namespace LockMgr

/-- C7: for every transaction in state SHRINKING at REPEATABLE_READ, any table
lock request aborts with LOCK_ON_SHRINKING; for every GROWING transaction at
READ_UNCOMMITTED, a table request in mode S, IS or SIX aborts with
LOCK_SHARED_ON_READ_UNCOMMITTED, while X and IX pass the isolation check. -/
theorem lockTable_isolation_policy (txn : Txn) (m : LockMode) (oid : Int)
    (q : LockRequestQueue) :
    (txn.state = TxnState.shrinking → txn.iso = IsoLevel.repeatableRead →
      lockTable txn m oid q =
        LockResult.abort AbortReason.lockOnShrinking (setAborted txn)) ∧
    (txn.state = TxnState.growing → txn.iso = IsoLevel.readUncommitted →
      ((m = LockMode.shared ∨ m = LockMode.intentionShared ∨
          m = LockMode.sharedIntentionExclusive) →
        lockTable txn m oid q =
          LockResult.abort AbortReason.lockSharedOnReadUncommitted (setAborted txn)) ∧
      ((m = LockMode.exclusive ∨ m = LockMode.intentionExclusive) →
        isolationCheck txn.state txn.iso m = none)) := by
  refine ⟨fun h1 h2 => ?_, fun h1 h2 => ⟨fun h3 => ?_, fun h3 => ?_⟩⟩
  · simp [lockTable, h1, h2, isolationCheck]
  · rcases h3 with h3 | h3 | h3 <;> simp [lockTable, h1, h2, h3, isolationCheck]
  · rcases h3 with h3 | h3 <;> simp [h1, h2, h3, isolationCheck]

/-- Closed instance of `lockTable_isolation_policy` at concrete inputs. -/
theorem lockTable_isolation_policy_witness :
    lockTable (mkTxn 1 TxnState.shrinking IsoLevel.repeatableRead) LockMode.exclusive 7
        ⟨[], INVALID_TXN_ID⟩ =
      LockResult.abort AbortReason.lockOnShrinking
        (setAborted (mkTxn 1 TxnState.shrinking IsoLevel.repeatableRead)) ∧
    lockTable (mkTxn 2 TxnState.growing IsoLevel.readUncommitted) LockMode.shared 7
        ⟨[], INVALID_TXN_ID⟩ =
      LockResult.abort AbortReason.lockSharedOnReadUncommitted
        (setAborted (mkTxn 2 TxnState.growing IsoLevel.readUncommitted)) ∧
    isolationCheck TxnState.growing IsoLevel.readUncommitted LockMode.exclusive = none :=
  ⟨(lockTable_isolation_policy (mkTxn 1 TxnState.shrinking IsoLevel.repeatableRead)
      LockMode.exclusive 7 ⟨[], INVALID_TXN_ID⟩).1 rfl rfl,
   ((lockTable_isolation_policy (mkTxn 2 TxnState.growing IsoLevel.readUncommitted)
      LockMode.shared 7 ⟨[], INVALID_TXN_ID⟩).2 rfl rfl).1 (Or.inl rfl),
   ((lockTable_isolation_policy (mkTxn 2 TxnState.growing IsoLevel.readUncommitted)
      LockMode.exclusive 7 ⟨[], INVALID_TXN_ID⟩).2 rfl rfl).2 (Or.inl rfl)⟩

/-- C1: a GROWING REPEATABLE_READ transaction that holds none of X, IX, SIX on
table 7 requests an X lock on row 3 of that table. LockRow enqueues the
request, grants it and returns true — the TABLE_LOCK_NOT_PRESENT abort the
spec requires is absent from the code. -/
theorem lockRow_grants_x_without_table_lock :
    holdsParentLockForRowX (mkTxn 1 TxnState.growing IsoLevel.repeatableRead) 7 = false ∧
    lockRow (mkTxn 1 TxnState.growing IsoLevel.repeatableRead) LockMode.exclusive 7 3
        ⟨[], INVALID_TXN_ID⟩ =
      LockResult.success
        { mkTxn 1 TxnState.growing IsoLevel.repeatableRead with
            exclusiveRowLockSet := [(7, [3])] }
        ⟨[⟨1, LockMode.exclusive, 7, 3, true⟩], INVALID_TXN_ID⟩ :=
  ⟨rfl, rfl⟩

/-- C9 counterexample: a SHRINKING REPEATABLE_READ transaction already holding
a granted S request on the table re-requests S; the claim says the call
returns true immediately, but the isolation gate runs first and the call
aborts with LOCK_ON_SHRINKING. -/
theorem lockTable_repeat_request_aborts_on_shrinking :
    lockTable (mkTxn 1 TxnState.shrinking IsoLevel.repeatableRead) LockMode.shared 7
        ⟨[⟨1, LockMode.shared, 7, 0, true⟩], INVALID_TXN_ID⟩ =
      LockResult.abort AbortReason.lockOnShrinking
        (setAborted (mkTxn 1 TxnState.shrinking IsoLevel.repeatableRead)) := rfl

/-- C9 as amended: if the caller passes the transaction-state and
isolation-level gate, and the first request of the calling transaction in the
queue (granted or still pending) has the requested mode, then lockTable — and,
for the row modes S and X, lockRow — returns true immediately, leaving the
transaction and the queue completely unchanged. -/
theorem lock_repeat_request_idempotent (txn : Txn) (m : LockMode) (oid rid : Int)
    (q : LockRequestQueue) (i : Nat) (r : LockRequest)
    (ha : txn.state ≠ TxnState.aborted) (hc : txn.state ≠ TxnState.committed)
    (hiso : isolationCheck txn.state txn.iso m = none)
    (hfind : findTxnRequest txn.txnId q.requests 0 = some (i, r))
    (hmode : r.mode = m) :
    lockTable txn m oid q = LockResult.success txn q ∧
    ((m = LockMode.shared ∨ m = LockMode.exclusive) →
      lockRow txn m oid rid q = LockResult.success txn q) := by
  constructor
  · simp only [lockTable, ha, hc, or_self, if_false, hiso, hfind, hmode, if_pos rfl]
    simp [ha, hc]
  · intro hm
    have hrow : ¬(m = LockMode.intentionExclusive ∨ m = LockMode.intentionShared ∨
        m = LockMode.sharedIntentionExclusive) := by
      rcases hm with hm | hm <;> simp [hm]
    simp only [lockRow, ha, hc, or_self, if_false, hrow, hiso, hfind, hmode, if_pos rfl]
    simp [ha, hc, hrow]

/-- Closed instance of `lock_repeat_request_idempotent`: a GROWING
REPEATABLE_READ transaction whose granted S request is already in the table
queue re-requests S and gets success with nothing changed. -/
theorem lock_repeat_request_idempotent_witness :
    lockTable (mkTxn 1 TxnState.growing IsoLevel.repeatableRead) LockMode.shared 7
        ⟨[⟨1, LockMode.shared, 7, 0, true⟩], INVALID_TXN_ID⟩ =
      LockResult.success (mkTxn 1 TxnState.growing IsoLevel.repeatableRead)
        ⟨[⟨1, LockMode.shared, 7, 0, true⟩], INVALID_TXN_ID⟩ ∧
    lockRow (mkTxn 1 TxnState.growing IsoLevel.repeatableRead) LockMode.shared 7 3
        ⟨[⟨1, LockMode.shared, 7, 0, true⟩], INVALID_TXN_ID⟩ =
      LockResult.success (mkTxn 1 TxnState.growing IsoLevel.repeatableRead)
        ⟨[⟨1, LockMode.shared, 7, 0, true⟩], INVALID_TXN_ID⟩ := by
  have h := lock_repeat_request_idempotent
    (mkTxn 1 TxnState.growing IsoLevel.repeatableRead) LockMode.shared 7 3
    ⟨[⟨1, LockMode.shared, 7, 0, true⟩], INVALID_TXN_ID⟩ 0
    ⟨1, LockMode.shared, 7, 0, true⟩
    (by decide) (by decide) (by decide) (by decide) (by decide)
  exact ⟨h.1, h.2 (Or.inl rfl)⟩

end LockMgr

namespace LockMgr

/-- C3 counterexample: three concrete upgrade scenarios on table 7 refuting the
claimed queue placement and upgrading bookkeeping. (a) T1 holds granted S and
T2 has a pending X; T1's upgrade to X ends up at the tail of the queue, BEHIND
T2's pending request, not ahead of it. (b) T1 and T2 both hold granted S; T1's
upgrade to X must wait, and while it waits the queue's upgrading field is still
INVALID_TXN_ID (-1), not T1's id. (c) on the queue left by (b), a second
upgrader T2 is not aborted with UPGRADE_CONFLICT: its own upgrade proceeds and
is even granted. -/
theorem lockTable_upgrade_placement_counterexample :
    lockTable { mkTxn 1 TxnState.growing IsoLevel.repeatableRead with
        sharedTableLockSet := [7] } LockMode.exclusive 7
      ⟨[⟨1, LockMode.shared, 7, 0, true⟩, ⟨2, LockMode.exclusive, 7, 0, false⟩],
        INVALID_TXN_ID⟩ =
      LockResult.success
        { mkTxn 1 TxnState.growing IsoLevel.repeatableRead with
            exclusiveTableLockSet := [7] }
        ⟨[⟨2, LockMode.exclusive, 7, 0, false⟩, ⟨1, LockMode.exclusive, 7, 0, true⟩],
          INVALID_TXN_ID⟩ ∧
    lockTable { mkTxn 1 TxnState.growing IsoLevel.repeatableRead with
        sharedTableLockSet := [7] } LockMode.exclusive 7
      ⟨[⟨2, LockMode.shared, 7, 0, true⟩, ⟨1, LockMode.shared, 7, 0, true⟩],
        INVALID_TXN_ID⟩ =
      LockResult.waiting (mkTxn 1 TxnState.growing IsoLevel.repeatableRead)
        ⟨[⟨2, LockMode.shared, 7, 0, true⟩, ⟨1, LockMode.exclusive, 7, 0, false⟩],
          INVALID_TXN_ID⟩ ∧
    lockTable { mkTxn 2 TxnState.growing IsoLevel.repeatableRead with
        sharedTableLockSet := [7] } LockMode.exclusive 7
      ⟨[⟨2, LockMode.shared, 7, 0, true⟩, ⟨1, LockMode.exclusive, 7, 0, false⟩],
        INVALID_TXN_ID⟩ =
      LockResult.success
        { mkTxn 2 TxnState.growing IsoLevel.repeatableRead with
            exclusiveTableLockSet := [7] }
        ⟨[⟨1, LockMode.exclusive, 7, 0, false⟩, ⟨2, LockMode.exclusive, 7, 0, true⟩],
          INVALID_TXN_ID⟩ :=
  ⟨rfl, rfl, rfl⟩

/-- C3 as amended: when an upgrade-eligible request arrives (the caller passes
the state/isolation gate, its first queued request `old` has a different mode,
no other upgrade is marked on the queue, and the upgrade path is permitted),
the old request is removed and the new upgrade request is appended at the TAIL
of the queue — after pending requests, not ahead of them — and the queue's
upgrading field is left at INVALID_TXN_ID in both the granted and the waiting
outcome; the upgrader's queue jump is implemented by GrantLock's upgrading
flag rather than by queue position or the upgrading field. -/
theorem lockTable_upgrade_appends_at_tail (txn : Txn) (m : LockMode) (oid : Int)
    (q : LockRequestQueue) (i : Nat) (old : LockRequest)
    (ha : txn.state ≠ TxnState.aborted) (hc : txn.state ≠ TxnState.committed)
    (hiso : isolationCheck txn.state txn.iso m = none)
    (hfind : findTxnRequest txn.txnId q.requests 0 = some (i, old))
    (hmode : old.mode ≠ m) (hupg : q.upgrading = INVALID_TXN_ID)
    (hpath : upgradeIncompatibleTable old.mode m = false) :
    lockTable txn m oid q =
      LockResult.success
        (insertOrDeleteTableLockSet (insertOrDeleteTableLockSet txn old false)
          ⟨txn.txnId, m, oid, 0, true⟩ true)
        ⟨q.requests.eraseIdx i ++ [⟨txn.txnId, m, oid, 0, true⟩], INVALID_TXN_ID⟩ ∨
    lockTable txn m oid q =
      LockResult.waiting (insertOrDeleteTableLockSet txn old false)
        ⟨q.requests.eraseIdx i ++ [⟨txn.txnId, m, oid, 0, false⟩], INVALID_TXN_ID⟩ := by
  simp only [lockTable, ha, hc, or_self, if_false, hiso, hfind, hmode, hupg,
    INVALID_TXN_ID, if_pos rfl, ne_eq, not_true_eq_false, if_false, hpath,
    Bool.false_eq_true]
  by_cases hg : grantLock m (q.requests.eraseIdx i).length true
      (q.requests.eraseIdx i ++
        [{ txnId := txn.txnId, mode := m, oid := oid, rid := 0, granted := false }]) 0 = true
  · left
    rw [if_pos hg]
  · right
    rw [if_neg hg]

/-- Closed instance of `lockTable_upgrade_appends_at_tail` at scenario (b) of
the counterexample: both granted S, T1 upgrades to X and waits. -/
theorem lockTable_upgrade_appends_at_tail_witness :
    lockTable { mkTxn 1 TxnState.growing IsoLevel.repeatableRead with
        sharedTableLockSet := [7] } LockMode.exclusive 7
      ⟨[⟨2, LockMode.shared, 7, 0, true⟩, ⟨1, LockMode.shared, 7, 0, true⟩],
        INVALID_TXN_ID⟩ =
      LockResult.success
        (insertOrDeleteTableLockSet
          (insertOrDeleteTableLockSet
            { mkTxn 1 TxnState.growing IsoLevel.repeatableRead with
                sharedTableLockSet := [7] } ⟨1, LockMode.shared, 7, 0, true⟩ false)
          ⟨1, LockMode.exclusive, 7, 0, true⟩ true)
        ⟨[⟨2, LockMode.shared, 7, 0, true⟩, ⟨1, LockMode.exclusive, 7, 0, true⟩],
          INVALID_TXN_ID⟩ ∨
    lockTable { mkTxn 1 TxnState.growing IsoLevel.repeatableRead with
        sharedTableLockSet := [7] } LockMode.exclusive 7
      ⟨[⟨2, LockMode.shared, 7, 0, true⟩, ⟨1, LockMode.shared, 7, 0, true⟩],
        INVALID_TXN_ID⟩ =
      LockResult.waiting
        (insertOrDeleteTableLockSet
          { mkTxn 1 TxnState.growing IsoLevel.repeatableRead with
              sharedTableLockSet := [7] } ⟨1, LockMode.shared, 7, 0, true⟩ false)
        ⟨[⟨2, LockMode.shared, 7, 0, true⟩, ⟨1, LockMode.exclusive, 7, 0, false⟩],
          INVALID_TXN_ID⟩ :=
  lockTable_upgrade_appends_at_tail
    { mkTxn 1 TxnState.growing IsoLevel.repeatableRead with sharedTableLockSet := [7] }
    LockMode.exclusive 7
    ⟨[⟨2, LockMode.shared, 7, 0, true⟩, ⟨1, LockMode.shared, 7, 0, true⟩],
      INVALID_TXN_ID⟩ 1 ⟨1, LockMode.shared, 7, 0, true⟩
    (by decide) (by decide) (by decide) (by decide) (by decide) (by decide) (by decide)

end LockMgr

namespace Deadlock

/-- The wait-for graph `waits_for_` of the lock manager: an association list
from transaction id to its outgoing-edge vector, listed in the iteration
order of the C++ unordered_map. -/
abbrev Graph := List (Int × List Int)

/-- Lookup `waits_for_[t]`: the default-constructed empty vector when absent. -/
def edgesOf (g : Graph) (t : Int) : List Int := (g.lookup t).getD []

/-- An upper bound on the nesting of LockManager::DFS on `g`: each nesting
level either enters a fresh node or steps over one edge, so twice the number
of nodes and edges mentioned in the graph suffices. -/
def graphFuel (g : Graph) : Nat :=
  2 * (g.length + (g.map (fun p => p.2.length)).sum) + 2

/-- LockManager::DFS (lock_manager.cpp:560-573) together with its edge loop.
The C++ mutates the member set `cycle_txn_id_`; here the set is threaded as a
list, and the function returns the flag together with the set as it stands on
return (on the `true` path the set is exactly the DFS path from the start node
to the node whose revisit was detected). A `Sum.inl t` task is a DFS call on
node `t`; a `Sum.inr es` task is the for-loop over the remaining edges `es`.
`fuel` bounds the total nesting and is decremented on every step so that the
recursion is structural. -/
def dfsGo (g : Graph) : Nat → List Int → (Int ⊕ List Int) → Bool × List Int
  | 0, visited, _ => (false, visited)
  | Nat.succ f, visited, Sum.inl t =>
      if visited.contains t then (true, visited)
      else
        match dfsGo g f (t :: visited) (Sum.inr (edgesOf g t)) with
        | (true, v2) => (true, v2)
        | (false, v2) => (false, v2.erase t)
  | Nat.succ _, visited, Sum.inr [] => (false, visited)
  | Nat.succ f, visited, Sum.inr (e :: rest) =>
      match dfsGo g f visited (Sum.inl e) with
      | (true, v2) => (true, v2)
      | (false, v2) => dfsGo g f v2 (Sum.inr rest)

/-- LockManager::DFS proper: a DFS call on one node. -/
def dfsNode (g : Graph) (fuel : Nat) (visited : List Int) (t : Int) : Bool × List Int :=
  dfsGo g fuel visited (Sum.inl t)

/-- std::max_element over the final `cycle_txn_id_` set (lock_manager.cpp:510). -/
def maxList (l : List Int) : Int := (l.max?).getD 0

/-- The entry loop of LockManager::HasCycle (lock_manager.cpp:506-516),
walking the map entries in iteration order. -/
def hasCycleAux (g : Graph) : List (Int × List Int) → Option Int
  | [] => none
  | (t, _) :: rest =>
      match dfsNode g (graphFuel g) [] t with
      | (true, path) => some (maxList path)
      | (false, _) => hasCycleAux g rest

/-- LockManager::HasCycle: the victim transaction id, if a cycle is found. -/
def hasCycle (g : Graph) : Option Int := hasCycleAux g g

/-- Bounded reachability along the wait-for edges, in at least one step. -/
def reachableWithin (g : Graph) : Nat → Int → Int → Bool
  | 0, _, _ => false
  | Nat.succ fuel, a, b =>
      (edgesOf g a).any (fun c => c == b || reachableWithin g fuel c b)

/-- A transaction lies on a cycle of the wait-for graph iff it reaches itself
in at least one step. -/
def onCycle (g : Graph) (t : Int) : Bool := reachableWithin g (graphFuel g) t t

/-- Every transaction id mentioned in the graph. -/
def nodesOf (g : Graph) : List Int := g.map (fun p => p.1) ++ (g.map (fun p => p.2)).flatten

/-- The wait-for graph 1→5, 5→2, 2→3, 3→2, with entries listed in sorted
TxnId order. Its only cycle is {2, 3}. -/
def g4 : Graph := [(1, [5]), (2, [3]), (3, [2]), (5, [2])]

end Deadlock

namespace Deadlock

/-- C4 counterexample: on the wait-for graph 1→5, 5→2, 2→3, 3→2 (entries in
sorted TxnId order; its only cycle is {2, 3}), HasCycle selects victim 5: the
DFS starting at node 1 walks 1→5→2→3 and detects the revisit of 2, and the
victim is taken as the maximum of the whole DFS path {1, 5, 2, 3} — a
transaction that lies on no cycle, while the largest TxnId on the actual
cycle is 3. -/
theorem hasCycle_selects_victim_off_cycle :
    hasCycle g4 = some 5 ∧
    onCycle g4 5 = false ∧
    onCycle g4 2 = true ∧ onCycle g4 3 = true ∧
    (nodesOf g4).all (fun t => !(onCycle g4 t) || (t == 2 || t == 3)) = true := by
  refine ⟨?_, ?_, ?_, ?_, ?_⟩ <;> decide

/-- C4 as amended: when a cycle is detected, the victim is the largest TxnId
among the nodes of the DFS path from the start node to the detection point —
a set that contains the detected cycle but can also contain the nodes on the
path leading into it — and the start nodes are tried in the iteration order of
the unordered_map `waits_for_`, not in sorted order. Formally: if the DFS from
the first map entry detects a cycle with final path `path`, HasCycle reports
the maximum of `path` as the victim, an element of `path` that bounds every
node of `path`. -/
theorem hasCycle_victim_is_dfs_path_max (g : Graph) (t : Int) (es : List Int)
    (rest : List (Int × List Int)) (path : List Int)
    (hg : g = (t, es) :: rest)
    (hdfs : dfsNode g (graphFuel g) [] t = (true, path))
    (hne : path ≠ []) :
    hasCycle g = some (maxList path) ∧ maxList path ∈ path ∧
      ∀ x ∈ path, x ≤ maxList path := by
  obtain ⟨a, ha⟩ : ∃ a, path.max? = some a := by
    cases path with
    | nil => exact absurd rfl hne
    | cons x xs => exact ⟨xs.foldl max x, rfl⟩
  have hml : maxList path = a := by rw [maxList, ha]; rfl
  have hmem : maxList path ∈ path := by
    rw [hml]
    exact List.max?_mem (fun a b => max_choice a b) ha
  have hle : ∀ x ∈ path, x ≤ maxList path := by
    rw [hml]
    exact (List.max?_le_iff (fun a b c => max_le_iff) ha).mp (le_refl a)
  refine ⟨?_, hmem, hle⟩
  have h1 : hasCycle g = hasCycleAux g ((t, es) :: rest) := by
    rw [hasCycle, ← hg]
  rw [h1, hasCycleAux, hdfs]

end Deadlock

namespace Deadlock

/-- Closed instance of `hasCycle_victim_is_dfs_path_max` on the graph `g4`:
the DFS from the first entry ends with path {3, 2, 5, 1} and the victim is
its maximum 5. -/
theorem hasCycle_victim_is_dfs_path_max_witness :
    hasCycle g4 = some (maxList [3, 2, 5, 1]) ∧ maxList [3, 2, 5, 1] ∈ [3, 2, 5, 1] ∧
      ∀ x ∈ [3, 2, 5, 1], x ≤ maxList [3, 2, 5, 1] :=
  hasCycle_victim_is_dfs_path_max g4 1 [5] [(2, [3]), (3, [2]), (5, [2])] [3, 2, 5, 1]
    (by decide) (by decide) (by decide)

end Deadlock

namespace Replacer

/-- Per-frame bookkeeping of the LRU-K replacer (struct FrameEntry in
lru_k_replacer.h): the access count and the evictable flag.

The header lru_k_replacer.h is not part of src/; the initial value of the
evictable flag on fresh insertion is modelled from the spec: invariant R1
says the replacer's size equals the count of evictable entries, and
RecordAccess increments curr_size_ when inserting, so a fresh entry starts
evictable. -/
structure FrameEntry where
  hitCount : Nat
  evictable : Bool
deriving DecidableEq, Repr

/-- LRUKReplacer state (lru_k_replacer.h): the history list `lru_`, the cache
list `lru_k_` (each in insertion order, keyed by frame id), `curr_size_`,
`replacer_size_` (= num_frames) and `k_`. -/
structure LRUKReplacer where
  lru : List (Int × FrameEntry)
  lruK : List (Int × FrameEntry)
  currSize : Nat
  replacerSize : Nat
  k : Nat
deriving DecidableEq, Repr

/-- First entry with the given frame id, mirroring the `it->first == frame_id`
scans. -/
def lookupList (l : List (Int × FrameEntry)) (fid : Int) : Option FrameEntry :=
  match l with
  | [] => none
  | (f, e) :: rest => if f == fid then some e else lookupList rest fid

/-- list::erase of the entry with the given frame id (first occurrence). -/
def eraseKey (l : List (Int × FrameEntry)) (fid : Int) : List (Int × FrameEntry) :=
  match l with
  | [] => []
  | (f, e) :: rest => if f == fid then rest else (f, e) :: eraseKey rest fid

/-- In-place update of the entry with the given frame id. -/
def updateKey (l : List (Int × FrameEntry)) (fid : Int) (e2 : FrameEntry) :
    List (Int × FrameEntry) :=
  match l with
  | [] => []
  | (f, e) :: rest => if f == fid then (f, e2) :: rest else (f, e) :: updateKey rest fid e2

/-- The scan-and-erase loop of LRUKReplacer::Evict over one list
(lru_k_replacer.cpp:22-41): the first evictable entry, removed. -/
def evictScan (l : List (Int × FrameEntry)) : Option (Int × List (Int × FrameEntry)) :=
  match l with
  | [] => none
  | (f, e) :: rest =>
      if e.evictable then some (f, rest)
      else
        match evictScan rest with
        | some (fid, rest2) => some (fid, (f, e) :: rest2)
        | none => none

/-- LRUKReplacer::Evict (lru_k_replacer.cpp:20-43). -/
def evict (r : LRUKReplacer) : Option (Int × LRUKReplacer) :=
  match evictScan r.lru with
  | some (fid, lru2) => some (fid, { r with lru := lru2, currSize := r.currSize - 1 })
  | none =>
      match evictScan r.lruK with
      | some (fid, lruK2) => some (fid, { r with lruK := lruK2, currSize := r.currSize - 1 })
      | none => none

/-- The body of LRUKReplacer::RecordAccess after the bounds check
(lru_k_replacer.cpp:50-79). -/
def recordAccessBody (r : LRUKReplacer) (fid : Int) : LRUKReplacer :=
  match lookupList r.lru fid with
  | some e =>
      let e2 := { e with hitCount := e.hitCount + 1 }
      if e2.hitCount == r.k then
        { r with lru := eraseKey r.lru fid, lruK := r.lruK ++ [(fid, e2)] }
      else
        { r with lru := updateKey r.lru fid e2 }
  | none =>
      match lookupList r.lruK fid with
      | some e =>
          let e2 := { e with hitCount := e.hitCount + 1 }
          { r with lruK := eraseKey r.lruK fid ++ [(fid, e2)] }
      | none =>
          if r.lru.length + r.lruK.length == r.replacerSize then r
          else
            { r with lru := r.lru ++ [(fid, ⟨1, true⟩)], currSize := r.currSize + 1 }

/-- LRUKReplacer::RecordAccess (lru_k_replacer.cpp:45-80): throws iff
frame_id > replacer_size_, then updates the lists. -/
def recordAccess (r : LRUKReplacer) (fid : Int) : Except Unit LRUKReplacer :=
  if (r.replacerSize : Int) < fid then Except.error ()
  else Except.ok (recordAccessBody r fid)

/-- curr_size_ adjustment in LRUKReplacer::SetEvictable
(lru_k_replacer.cpp:89-97). -/
def adjustSize (c : Nat) (oldEv newEv : Bool) : Nat :=
  if oldEv && !newEv then c - 1
  else if !oldEv && newEv then c + 1
  else c

/-- The body of LRUKReplacer::SetEvictable after the bounds check
(lru_k_replacer.cpp:87-114). -/
def setEvictableBody (r : LRUKReplacer) (fid : Int) (ev : Bool) : LRUKReplacer :=
  match lookupList r.lru fid with
  | some e =>
      { r with lru := updateKey r.lru fid { e with evictable := ev },
               currSize := adjustSize r.currSize e.evictable ev }
  | none =>
      match lookupList r.lruK fid with
      | some e =>
          { r with lruK := updateKey r.lruK fid { e with evictable := ev },
                   currSize := adjustSize r.currSize e.evictable ev }
      | none => r

/-- LRUKReplacer::SetEvictable (lru_k_replacer.cpp:82-115). -/
def setEvictable (r : LRUKReplacer) (fid : Int) (ev : Bool) : Except Unit LRUKReplacer :=
  if (r.replacerSize : Int) < fid then Except.error ()
  else Except.ok (setEvictableBody r fid ev)

/-- LRUKReplacer::Remove (lru_k_replacer.cpp:117-142): throws if
frame_id > replacer_size_, and also throws when the frame is found in either
list with evictable = false. -/
def removeFrame (r : LRUKReplacer) (fid : Int) : Except Unit LRUKReplacer :=
  if (r.replacerSize : Int) < fid then Except.error ()
  else
    match lookupList r.lru fid with
    | some e =>
        if !e.evictable then Except.error ()
        else Except.ok { r with lru := eraseKey r.lru fid, currSize := r.currSize - 1 }
    | none =>
        match lookupList r.lruK fid with
        | some e =>
            if !e.evictable then Except.error ()
            else Except.ok { r with lruK := eraseKey r.lruK fid, currSize := r.currSize - 1 }
        | none => Except.ok r

/-- LRUKReplacer::Size (lru_k_replacer.cpp:144-159). -/
def size (r : LRUKReplacer) : Nat := r.currSize

/-- LRUKReplacer::LRUKReplacer(num_frames, k). -/
def mkReplacer (numFrames k : Nat) : LRUKReplacer := ⟨[], [], 0, numFrames, k⟩

/-- The frame is present in one of the two lists with evictable = false: the
extra condition under which Remove throws. -/
def presentNonEvictable (r : LRUKReplacer) (fid : Int) : Bool :=
  match lookupList r.lru fid with
  | some e => !e.evictable
  | none =>
      match lookupList r.lruK fid with
      | some e => !e.evictable
      | none => false

theorem recordAccess_error_iff (r : LRUKReplacer) (fid : Int) :
    recordAccess r fid = Except.error () ↔ (r.replacerSize : Int) < fid := by
  rw [recordAccess]
  split
  · next h => simp [h]
  · next h => simp [h]

theorem setEvictable_error_iff (r : LRUKReplacer) (fid : Int) (ev : Bool) :
    setEvictable r fid ev = Except.error () ↔ (r.replacerSize : Int) < fid := by
  rw [setEvictable]
  split
  · next h => simp [h]
  · next h => simp [h]

theorem removeFrame_error_iff (r : LRUKReplacer) (fid : Int) :
    removeFrame r fid = Except.error () ↔
      (r.replacerSize : Int) < fid ∨ presentNonEvictable r fid = true := by
  rw [removeFrame, presentNonEvictable]
  split
  · next h => simp [h]
  · next h =>
      simp only [h, false_or]
      split
      · next e heq =>
          cases hev : e.evictable <;> simp [hev]
      · next heq =>
          split
          · next e heq2 =>
              cases hev : e.evictable <;> simp [hev]
          · next heq2 => simp

end Replacer

namespace Replacer

/-- C10 counterexample: with num_frames = 2 and k = 2, frame 1 is accessed
once and then marked non-evictable; Remove(1) then throws although
1 ≤ num_frames, refuting the claimed "throws if and only if
frame_id > num_frames" for remove. -/
theorem removeFrame_throws_within_bounds :
    recordAccess (mkReplacer 2 2) 1 =
      Except.ok ⟨[(1, ⟨1, true⟩)], [], 1, 2, 2⟩ ∧
    setEvictable ⟨[(1, ⟨1, true⟩)], [], 1, 2, 2⟩ 1 false =
      Except.ok ⟨[(1, ⟨1, false⟩)], [], 0, 2, 2⟩ ∧
    removeFrame ⟨[(1, ⟨1, false⟩)], [], 0, 2, 2⟩ 1 = Except.error () ∧
    ¬((2 : Int) < 1) := by
  refine ⟨rfl, rfl, rfl, by decide⟩

/-- C10 as amended: record_access and set_evictable signal an error if and
only if frame_id is strictly greater than num_frames; remove signals an error
if and only if frame_id is strictly greater than num_frames OR the frame is
present in one of the two lists with evictable = false; the boundary value
frame_id = num_frames is accepted and tracked as an ordinary frame (shown at
num_frames = 2, k = 2 on the fresh replacer). -/
theorem replacer_bounds_policy :
    (∀ (r : LRUKReplacer) (fid : Int),
      recordAccess r fid = Except.error () ↔ (r.replacerSize : Int) < fid) ∧
    (∀ (r : LRUKReplacer) (fid : Int) (ev : Bool),
      setEvictable r fid ev = Except.error () ↔ (r.replacerSize : Int) < fid) ∧
    (∀ (r : LRUKReplacer) (fid : Int),
      removeFrame r fid = Except.error () ↔
        (r.replacerSize : Int) < fid ∨ presentNonEvictable r fid = true) ∧
    recordAccess (mkReplacer 2 2) 2 = Except.ok ⟨[(2, ⟨1, true⟩)], [], 1, 2, 2⟩ :=
  ⟨recordAccess_error_iff, setEvictable_error_iff, removeFrame_error_iff, rfl⟩

end Replacer

namespace BufferPool

open Replacer

/-- INVALID_PAGE_ID from common/config.h. -/
def INVALID_PAGE_ID : Int := -1

/-- A page frame (storage/page/page.h): current page id, pin count, dirty
flag, and the page bytes (abstracted to a list). -/
structure Page where
  pageId : Int
  pinCount : Nat
  isDirty : Bool
  data : List Nat
deriving DecidableEq, Repr

/-- The frame a fresh Page object holds: zeroed memory, INVALID_PAGE_ID,
pin count 0. -/
def emptyPage : Page := ⟨INVALID_PAGE_ID, 0, false, []⟩

/-- BufferPoolManagerInstance state: the frame array `pages_`, the page table
(page id → frame id), the free list, the replacer, `next_page_id_` and the
backing disk contents. -/
structure BufferPoolManagerInstance where
  poolSize : Nat
  pages : List Page
  pageTable : List (Int × Int)
  freeList : List Int
  replacer : LRUKReplacer
  nextPageId : Int
  disk : List (Int × List Nat)
deriving DecidableEq, Repr

/-- pages_[fid]. -/
def pageAt (b : BufferPoolManagerInstance) (fid : Int) : Page :=
  b.pages.getD fid.toNat emptyPage

/-- page_table_->Remove(pid). -/
def ptRemove (pt : List (Int × Int)) (pid : Int) : List (Int × Int) :=
  match pt with
  | [] => []
  | (p, f) :: rest => if p == pid then rest else (p, f) :: ptRemove rest pid

/-- disk_manager_->WritePage(pid, data). -/
def diskWrite (d : List (Int × List Nat)) (pid : Int) (data : List Nat) :
    List (Int × List Nat) :=
  match d with
  | [] => [(pid, data)]
  | (p, bytes) :: rest =>
      if p == pid then (p, data) :: rest else (p, bytes) :: diskWrite rest pid data

/-- BufferPoolManagerInstance::FindNewPg (buffer_pool_manager_instance.cpp:
46-76): fails when no frame has pin count zero; otherwise pops the free list,
or evicts a victim (flushing it if dirty, resetting its bytes and dropping its
old page-table entry). -/
def findNewPg (b : BufferPoolManagerInstance) :
    Option (Int × BufferPoolManagerInstance) :=
  if !(b.pages.any (fun p => p.pinCount == 0)) then none
  else
    match b.freeList with
    | fid :: rest => some (fid, { b with freeList := rest })
    | [] =>
        match evict b.replacer with
        | some (fid, rep2) =>
            let p := pageAt b fid
            let b1 :=
              if p.isDirty then
                { b with disk := diskWrite b.disk p.pageId p.data,
                         pages := b.pages.set fid.toNat { p with isDirty := false } }
              else b
            let p1 := pageAt b1 fid
            some (fid,
              { b1 with replacer := rep2,
                        pages := b1.pages.set fid.toNat { p1 with data := [] },
                        pageTable := ptRemove b1.pageTable p1.pageId })
        | none => none

/-- BufferPoolManagerInstance::NewPgImp (buffer_pool_manager_instance.cpp:
77-95). The replacer calls can throw, hence the Except layer; `Except.ok none`
is the nullptr return. -/
def newPgImp (b : BufferPoolManagerInstance) :
    Except Unit (Option (Int × BufferPoolManagerInstance)) :=
  match findNewPg b with
  | none => Except.ok none
  | some (fid, b1) =>
      let pid := b1.nextPageId
      let b2 := { b1 with nextPageId := b1.nextPageId + 1 }
      if pid == INVALID_PAGE_ID then Except.ok none
      else
        let p := pageAt b2 fid
        let b3 :=
          { b2 with pages := b2.pages.set fid.toNat
                      { p with pageId := pid, isDirty := false, pinCount := 1 },
                    pageTable := b2.pageTable ++ [(pid, fid)] }
        match recordAccess b3.replacer fid with
        | Except.error e => Except.error e
        | Except.ok rep1 =>
            match setEvictable rep1 fid false with
            | Except.error e => Except.error e
            | Except.ok rep2 => Except.ok (some (pid, { b3 with replacer := rep2 }))

end BufferPool

namespace Replacer

theorem evictScan_eq_none_iff (l : List (Int × FrameEntry)) :
    evictScan l = none ↔ ∀ p ∈ l, p.2.evictable = false := by
  induction l with
  | nil => simp [evictScan]
  | cons hd tl ih =>
      obtain ⟨f, e⟩ := hd
      rw [evictScan]
      by_cases hev : e.evictable
      · simp [hev]
      · cases hscan : evictScan tl with
        | none =>
            simp only [hev, Bool.false_eq_true, if_false, hscan]
            constructor
            · intro _ p hp
              rcases List.mem_cons.mp hp with hp | hp
              · rw [hp]; simpa using hev
              · exact ih.mp hscan p hp
            · intro _; trivial
        | some v =>
            obtain ⟨fid, rest2⟩ := v
            simp only [hev, Bool.false_eq_true, if_false, hscan]
            constructor
            · intro hc; exact absurd hc (by simp)
            · intro hall
              have hnone : evictScan tl = none :=
                ih.mpr (fun p hp => hall p (List.mem_cons_of_mem _ hp))
              have : (some (fid, rest2) : Option (Int × List (Int × FrameEntry))) = none :=
                hscan.symm.trans hnone
              exact absurd this (by simp)

theorem evictScan_some_mem (l : List (Int × FrameEntry)) (fid : Int)
    (l2 : List (Int × FrameEntry)) (h : evictScan l = some (fid, l2)) :
    ∃ e, (fid, e) ∈ l := by
  induction l generalizing l2 with
  | nil => simp [evictScan] at h
  | cons hd tl ih =>
      obtain ⟨f, e⟩ := hd
      rw [evictScan] at h
      by_cases hev : e.evictable
      · simp only [hev, if_true, Option.some.injEq, Prod.mk.injEq] at h
        refine ⟨e, ?_⟩
        rw [← h.1]
        exact List.mem_cons_self _ _
      · simp only [hev, Bool.false_eq_true, if_false] at h
        cases hscan : evictScan tl with
        | none => rw [hscan] at h; exact absurd h (by simp)
        | some v =>
            obtain ⟨fid2, rest2⟩ := v
            rw [hscan] at h
            simp only [Option.some.injEq, Prod.mk.injEq] at h
            obtain ⟨hf, _⟩ := h
            obtain ⟨e2, he2⟩ := ih rest2 (hf ▸ hscan)
            exact ⟨e2, List.mem_cons_of_mem _ he2⟩

theorem evict_replacerSize (r : LRUKReplacer) (fid : Int) (r2 : LRUKReplacer)
    (h : evict r = some (fid, r2)) : r2.replacerSize = r.replacerSize := by
  rw [evict] at h
  cases h1 : evictScan r.lru with
  | some v =>
      obtain ⟨f, l2⟩ := v
      rw [h1] at h
      simp only [Option.some.injEq, Prod.mk.injEq] at h
      rw [← h.2]
  | none =>
      rw [h1] at h
      cases h2 : evictScan r.lruK with
      | some v =>
          obtain ⟨f, l2⟩ := v
          rw [h2] at h
          simp only [Option.some.injEq, Prod.mk.injEq] at h
          rw [← h.2]
      | none => rw [h2] at h; exact absurd h (by simp)

theorem evict_some_mem (r : LRUKReplacer) (fid : Int) (r2 : LRUKReplacer)
    (h : evict r = some (fid, r2)) : ∃ e, (fid, e) ∈ r.lru ++ r.lruK := by
  rw [evict] at h
  cases h1 : evictScan r.lru with
  | some v =>
      obtain ⟨f, l2⟩ := v
      rw [h1] at h
      simp only [Option.some.injEq, Prod.mk.injEq] at h
      obtain ⟨e, he⟩ := evictScan_some_mem r.lru f l2 h1
      exact ⟨e, List.mem_append_left _ (h.1 ▸ he)⟩
  | none =>
      rw [h1] at h
      cases h2 : evictScan r.lruK with
      | some v =>
          obtain ⟨f, l2⟩ := v
          rw [h2] at h
          simp only [Option.some.injEq, Prod.mk.injEq] at h
          obtain ⟨e, he⟩ := evictScan_some_mem r.lruK f l2 h2
          exact ⟨e, List.mem_append_right _ (h.1 ▸ he)⟩
      | none => rw [h2] at h; exact absurd h (by simp)

theorem evict_some_of_evictable (r : LRUKReplacer)
    (h : ∃ p ∈ r.lru ++ r.lruK, p.2.evictable = true) :
    ∃ fid r2, evict r = some (fid, r2) := by
  obtain ⟨p, hp, hev⟩ := h
  rw [evict]
  cases h1 : evictScan r.lru with
  | some v => exact ⟨v.1, _, rfl⟩
  | none =>
      cases h2 : evictScan r.lruK with
      | some v => exact ⟨v.1, _, rfl⟩
      | none =>
          exfalso
          rcases List.mem_append.mp hp with hmem | hmem
          · have := (evictScan_eq_none_iff r.lru).mp h1 p hmem
            rw [hev] at this; exact absurd this (by simp)
          · have := (evictScan_eq_none_iff r.lruK).mp h2 p hmem
            rw [hev] at this; exact absurd this (by simp)

theorem recordAccessBody_replacerSize (r : LRUKReplacer) (fid : Int) :
    (recordAccessBody r fid).replacerSize = r.replacerSize := by
  rw [recordAccessBody]
  split
  · dsimp only
    split <;> rfl
  · split
    · rfl
    · split <;> rfl

end Replacer

namespace BufferPool

open Replacer

theorem findNewPg_some (b : BufferPoolManagerInstance)
    (hfree : ∀ fid ∈ b.freeList, 0 ≤ fid ∧ fid.toNat < b.poolSize)
    (hrepl : ∀ p ∈ b.replacer.lru ++ b.replacer.lruK, 0 ≤ p.1 ∧ p.1.toNat < b.poolSize)
    (hzero : ∀ i ∈ List.range b.pages.length,
      (b.pages.getD i emptyPage).pinCount = 0 →
      ((i : Int) ∈ b.freeList ∨
        ∃ p ∈ b.replacer.lru ++ b.replacer.lruK, p.1 = (i : Int) ∧ p.2.evictable = true))
    (hex : ∃ p ∈ b.pages, p.pinCount = 0) :
    ∃ fid b1, findNewPg b = some (fid, b1) ∧ 0 ≤ fid ∧ fid.toNat < b.poolSize ∧
      b1.replacer.replacerSize = b.replacer.replacerSize ∧
      b1.pages.length = b.pages.length ∧ b1.nextPageId = b.nextPageId ∧
      b1.poolSize = b.poolSize := by
  have hany : b.pages.any (fun p => p.pinCount == 0) = true := by
    obtain ⟨p, hp, h0⟩ := hex
    exact List.any_eq_true.mpr ⟨p, hp, by simp [h0]⟩
  rw [findNewPg, hany]
  cases hfl : b.freeList with
  | cons fid rest =>
      have hmem : fid ∈ b.freeList := by rw [hfl]; exact List.mem_cons_self _ _
      exact ⟨fid, { b with freeList := rest }, rfl, (hfree fid hmem).1,
        (hfree fid hmem).2, rfl, rfl, rfl, rfl⟩
  | nil =>
      obtain ⟨p, hp, h0⟩ := hex
      obtain ⟨i, hi, hpi⟩ := List.mem_iff_getElem.mp hp
      have hiz := hzero i (List.mem_range.mpr hi)
        (by rw [List.getD_eq_getElem _ _ hi, hpi]; exact h0)
      rcases hiz with hiz | hiz
      · rw [hfl] at hiz; exact absurd hiz (by simp)
      · obtain ⟨q, hq, _, hqev⟩ := hiz
        obtain ⟨fid0, r2, hev⟩ := evict_some_of_evictable b.replacer ⟨q, hq, hqev⟩
        rw [hev]
        obtain ⟨e, he⟩ := evict_some_mem b.replacer fid0 r2 hev
        have hvalid := hrepl (fid0, e) he
        have hrs2 := evict_replacerSize b.replacer fid0 r2 hev
        by_cases hd : (pageAt b fid0).isDirty
        · exact ⟨fid0, _, rfl, hvalid.1, hvalid.2, by simp [hd, hrs2], by simp [hd], by
            simp [hd], by simp [hd]⟩
        · exact ⟨fid0, _, rfl, hvalid.1, hvalid.2, by simp [hd, hrs2], by simp [hd], by
            simp [hd], by simp [hd]⟩

end BufferPool

namespace BufferPool

open Replacer

/-- C6: under the buffer-pool invariants — frame array of length pool_size,
replacer sized pool_size, nonnegative next page id, valid frame ids in the
free list and the replacer, and every frame with pin_count = 0 being either on
the free list or present-and-evictable in the replacer — new_page returns None
if and only if every frame has pin_count > 0; and whenever some frame has
pin_count = 0, new_page succeeds, returning the fresh page id next_page_id
with that page's pin_count set to 1. -/
theorem newPgImp_none_iff_all_pinned (b : BufferPoolManagerInstance)
    (hlen : b.pages.length = b.poolSize)
    (hrs : b.replacer.replacerSize = b.poolSize)
    (hnext : 0 ≤ b.nextPageId)
    (hfree : ∀ fid ∈ b.freeList, 0 ≤ fid ∧ fid.toNat < b.poolSize)
    (hrepl : ∀ p ∈ b.replacer.lru ++ b.replacer.lruK, 0 ≤ p.1 ∧ p.1.toNat < b.poolSize)
    (hzero : ∀ i ∈ List.range b.pages.length,
      (b.pages.getD i emptyPage).pinCount = 0 →
      ((i : Int) ∈ b.freeList ∨
        ∃ p ∈ b.replacer.lru ++ b.replacer.lruK, p.1 = (i : Int) ∧ p.2.evictable = true)) :
    (newPgImp b = Except.ok none ↔ ∀ p ∈ b.pages, 0 < p.pinCount) ∧
    ((∃ p ∈ b.pages, p.pinCount = 0) →
      ∃ b2, newPgImp b = Except.ok (some (b.nextPageId, b2)) ∧
        ∃ p ∈ b2.pages, p.pageId = b.nextPageId ∧ p.pinCount = 1) := by
  have key : (∃ p ∈ b.pages, p.pinCount = 0) →
      ∃ b2, newPgImp b = Except.ok (some (b.nextPageId, b2)) ∧
        ∃ p ∈ b2.pages, p.pageId = b.nextPageId ∧ p.pinCount = 1 := by
    intro hex
    obtain ⟨fid, b1, hfind, hfid0, hfidlt, hrs1, hlen1, hnext1, hpool1⟩ :=
      findNewPg_some b hfree hrepl hzero hex
    rw [newPgImp, hfind]
    have hpid : (b1.nextPageId == INVALID_PAGE_ID) = false := by
      rw [hnext1, INVALID_PAGE_ID]
      simp only [beq_eq_false_iff_ne, ne_eq]
      omega
    have hra : recordAccess b1.replacer fid =
        Except.ok (recordAccessBody b1.replacer fid) := by
      rw [recordAccess, if_neg]
      rw [hrs1, hrs]
      omega
    have hse : setEvictable (recordAccessBody b1.replacer fid) fid false =
        Except.ok (setEvictableBody (recordAccessBody b1.replacer fid) fid false) := by
      rw [setEvictable, if_neg]
      rw [recordAccessBody_replacerSize, hrs1, hrs]
      omega
    simp only [hpid, Bool.false_eq_true, if_false, hra, hse]
    rw [hnext1]
    refine ⟨_, rfl, ?_⟩
    have hidx : fid.toNat < (b1.pages.set fid.toNat
        { pageAt { b1 with nextPageId := b.nextPageId + 1 } fid with
            pageId := b.nextPageId, isDirty := false, pinCount := 1 }).length := by
      rw [List.length_set, hlen1, hlen]
      omega
    exact ⟨_, List.mem_iff_getElem.mpr ⟨fid.toNat, hidx, List.getElem_set_self hidx⟩,
      rfl, rfl⟩
  refine ⟨⟨?_, ?_⟩, key⟩
  · intro hok p hp
    by_contra h0
    have hz : p.pinCount = 0 := by omega
    obtain ⟨b2, hb2, _⟩ := key ⟨p, hp, hz⟩
    rw [hok] at hb2
    exact absurd hb2 (by simp)
  · intro hall
    have hany : b.pages.any (fun p => p.pinCount == 0) = false := by
      by_contra hc
      rw [Bool.not_eq_false, List.any_eq_true] at hc
      obtain ⟨p, hp, hpz⟩ := hc
      have := hall p hp
      simp only [beq_iff_eq] at hpz
      omega
    rw [newPgImp, findNewPg, hany]
    rfl

end BufferPool

namespace BufferPool

/-- Closed instance of `newPgImp_none_iff_all_pinned`: a one-frame pool whose
frame is fresh and free. -/
theorem newPgImp_none_iff_all_pinned_witness :
    (newPgImp ⟨1, [emptyPage], [], [0], Replacer.mkReplacer 1 2, 1, []⟩ =
        Except.ok none ↔ ∀ p ∈ [emptyPage], 0 < p.pinCount) ∧
    ((∃ p ∈ [emptyPage], p.pinCount = 0) →
      ∃ b2, newPgImp ⟨1, [emptyPage], [], [0], Replacer.mkReplacer 1 2, 1, []⟩ =
          Except.ok (some (1, b2)) ∧
        ∃ p ∈ b2.pages, p.pageId = 1 ∧ p.pinCount = 1) :=
  newPgImp_none_iff_all_pinned ⟨1, [emptyPage], [], [0], Replacer.mkReplacer 1 2, 1, []⟩
    (by decide) (by decide) (by decide) (by decide) (by decide) (by decide)

end BufferPool

namespace BTree

/-- INVALID_PAGE_ID from common/config.h. -/
def INVALID_PAGE_ID : Int := -1

/-- IndexPageType (b_plus_tree_page.h). -/
inductive PageKind where
  | leaf
  | internal
deriving DecidableEq, Repr

/-- A B+-tree page: the common header (page type, size, max_size,
parent_page_id, page_id), the leaf-only next_page_id, and the entry array.
For a leaf the entries are (key, rid); for an internal page (key, child page
id), slot 0's key being the unused sentinel. The array models the fixed
on-page array: slots past `size` keep whatever was last written there (stale
data the C++ can read back), and slots never written read as zeroed memory,
i.e. (0, 0). -/
structure TreePage where
  pageKind : PageKind
  size : Nat
  maxSize : Nat
  parentPageId : Int
  pageId : Int
  nextPageId : Int
  arr : List (Nat × Int)
deriving DecidableEq, Repr

/-- Read of array_[i]: zeroed memory beyond anything ever written. -/
def arrGet (l : List (Nat × Int)) (i : Nat) : Nat × Int := l.getD i (0, 0)

/-- Write of array_[i], extending the modelled array with zeroed slots if the
write lands past its current extent. -/
def arrSet (l : List (Nat × Int)) (i : Nat) (v : Nat × Int) : List (Nat × Int) :=
  (l ++ List.replicate (i + 1 - l.length) (0, 0)).set i v

/-- KeyAt(i) for a nonnegative index; a negative index (possible in the C++
only through unreachable paths) reads as zero. -/
def keyAt (p : TreePage) (i : Int) : Nat :=
  if i < 0 then 0 else (arrGet p.arr i.toNat).1

/-- ValueAt(i). -/
def valueAt (p : TreePage) (i : Int) : Int :=
  if i < 0 then 0 else (arrGet p.arr i.toNat).2

/-- SetKeyAt(i, k). -/
def setKeyAt (p : TreePage) (i : Nat) (k : Nat) : TreePage :=
  { p with arr := arrSet p.arr i (k, (arrGet p.arr i).2) }

/-- SetValueAt(i, v). -/
def setValueAt (p : TreePage) (i : Nat) (v : Int) : TreePage :=
  { p with arr := arrSet p.arr i ((arrGet p.arr i).1, v) }

/-- IsLeafPage(). -/
def isLeafPage (p : TreePage) : Bool := p.pageKind == PageKind.leaf

/-- IsRootPage(): parent_page_id_ == INVALID_PAGE_ID. -/
def isRootPage (p : TreePage) : Bool := p.parentPageId == INVALID_PAGE_ID

/-- Modelled from the spec: BPlusTreePage::GetMinSize is defined in
b_plus_tree_page.cpp, which is not under src/; spec §3 fixes
min_size = ceil(max_size / 2) for leaves and internal nodes alike. -/
def getMinSize (p : TreePage) : Nat := (p.maxSize + 1) / 2

/-- The ascending copy loop `for (i = start; i < stop; i++) slot[i+1] :=
slot[i]` used by BPlusTreeLeafPage::Insert (b_plus_tree_leaf_page.cpp:137-140
and 145-148). Each read sees the writes of the earlier iterations, exactly as
in the C++ — for shift distances of two or more this duplicates slot[start]
into every higher slot. `count` is the number of iterations (stop - start). -/
def shiftRightAsc : TreePage → Nat → Nat → TreePage
  | p, _, 0 => p
  | p, i, Nat.succ c =>
      let p2 := setValueAt (setKeyAt p (i + 1) (keyAt p i)) (i + 1) (valueAt p i)
      shiftRightAsc p2 (i + 1) c

/-- The descending copy loop `for (i = hi; i >= lo; i--) slot[i+1] := slot[i]`
used by BPlusTreeInternalPage::Insert and AppendFirst. `i` starts at `hi`
and `count` iterations run. -/
def shiftRightDesc : TreePage → Nat → Nat → TreePage
  | p, _, 0 => p
  | p, i, Nat.succ c =>
      let p2 := setValueAt (setKeyAt p (i + 1) (keyAt p i)) (i + 1) (valueAt p i)
      shiftRightDesc p2 (i - 1) c

/-- The ascending close-the-gap loop `for (i = start; i < stop; i++) slot[i]
:= slot[i+1]` used by the Remove and PopFirst functions. -/
def shiftLeftAsc : TreePage → Nat → Nat → TreePage
  | p, _, 0 => p
  | p, i, Nat.succ c =>
      let p2 := setValueAt (setKeyAt p i (keyAt p (i + 1))) i (valueAt p (i + 1))
      shiftLeftAsc p2 (i + 1) c

/-- The binary search of BPlusTreeLeafPage::FindKey
(b_plus_tree_leaf_page.cpp:66-80). -/
def leafFindKeyGo (p : TreePage) (k : Nat) : Nat → Int → Int → Bool
  | 0, _, _ => false
  | Nat.succ f, left, right =>
      if left ≤ right then
        let mid := (left + right) / 2
        if k < keyAt p mid then leafFindKeyGo p k f left (mid - 1)
        else if keyAt p mid < k then leafFindKeyGo p k f (mid + 1) right
        else true
      else false

/-- BPlusTreeLeafPage::FindKey. -/
def leafFindKey (p : TreePage) (k : Nat) : Bool :=
  leafFindKeyGo p k (p.size + 2) 0 ((p.size : Int) - 1)

/-- The binary search of BPlusTreeLeafPage::ReturnValue
(b_plus_tree_leaf_page.cpp:82-97). -/
def leafReturnValueGo (p : TreePage) (k : Nat) : Nat → Int → Int → Option Int
  | 0, _, _ => none
  | Nat.succ f, left, right =>
      if left ≤ right then
        let mid := (left + right) / 2
        if k < keyAt p mid then leafReturnValueGo p k f left (mid - 1)
        else if keyAt p mid < k then leafReturnValueGo p k f (mid + 1) right
        else some (valueAt p mid)
      else none

/-- BPlusTreeLeafPage::ReturnValue. -/
def leafReturnValue (p : TreePage) (k : Nat) : Option Int :=
  leafReturnValueGo p k (p.size + 2) 0 ((p.size : Int) - 1)

/-- The `while (left < right)` search loop of BPlusTreeLeafPage::Insert
(b_plus_tree_leaf_page.cpp:121-132): none when the key was hit (duplicate),
otherwise the final value of `left`. -/
def leafInsertGo (p : TreePage) (k : Nat) : Nat → Int → Int → Option Int
  | 0, left, _ => some left
  | Nat.succ f, left, right =>
      if left < right then
        let mid := (left + right) / 2
        if k < keyAt p mid then leafInsertGo p k f left (mid - 1)
        else if keyAt p mid < k then leafInsertGo p k f (mid + 1) right
        else none
      else some left

/-- BPlusTreeLeafPage::Insert (b_plus_tree_leaf_page.cpp:114-154). Note both
shift loops run in ascending index order. -/
def leafInsert (p : TreePage) (k : Nat) (v : Int) : TreePage × Bool :=
  if p.size == 0 then
    ({ setValueAt (setKeyAt p 0 k) 0 v with size := p.size + 1 }, true)
  else
    match leafInsertGo p k (p.size + 2) 0 ((p.size : Int) - 1) with
    | none => (p, false)
    | some left =>
        let l := left.toNat
        if k == keyAt p left then (p, false)
        else if keyAt p left < k then
          let p2 := shiftRightAsc p (l + 1) (p.size - (l + 1))
          let p3 := setValueAt (setKeyAt p2 (l + 1) k) (l + 1) v
          ({ p3 with size := p3.size + 1 }, true)
        else
          let p2 := shiftRightAsc p l (p.size - l)
          let p3 := setValueAt (setKeyAt p2 l k) l v
          ({ p3 with size := p3.size + 1 }, true)

/-- The binary search and gap-closing of BPlusTreeLeafPage::Remove
(b_plus_tree_leaf_page.cpp:156-175). -/
def leafRemoveGo (p : TreePage) (k : Nat) : Nat → Int → Int → TreePage
  | 0, _, _ => p
  | Nat.succ f, left, right =>
      if left ≤ right then
        let mid := (left + right) / 2
        if k < keyAt p mid then leafRemoveGo p k f left (mid - 1)
        else if keyAt p mid < k then leafRemoveGo p k f (mid + 1) right
        else
          let p2 := shiftLeftAsc p mid.toNat (p.size - 1 - mid.toNat)
          { p2 with size := p2.size - 1 }
      else p

/-- BPlusTreeLeafPage::Remove. -/
def leafRemove (p : TreePage) (k : Nat) : TreePage :=
  leafRemoveGo p k (p.size + 2) 0 ((p.size : Int) - 1)

/-- The copy loop of BPlusTreeLeafPage::Move: `count` slots of `p` starting at
index `i` are copied into `np2` at index `i - minsize`. -/
def leafMoveGo (p : TreePage) (minsize : Nat) : TreePage → Nat → Nat → TreePage
  | np2, _, 0 => np2
  | np2, i, Nat.succ c =>
      let np3 := setValueAt (setKeyAt np2 (i - minsize) (keyAt p (i : Int)))
        (i - minsize) (valueAt p (i : Int))
      leafMoveGo p minsize np3 (i + 1) c

/-- BPlusTreeLeafPage::Move (b_plus_tree_leaf_page.cpp:103-112), called on the
fresh sibling `np` with the overflowing leaf `p` as argument: copies slots
[min_size, max_size) of `p` into `np` and adjusts both sizes. -/
def leafMove (np p : TreePage) : TreePage × TreePage :=
  let maxsize := np.maxSize
  let minsize := getMinSize np
  let np4 := leafMoveGo p minsize np minsize (maxsize - minsize)
  ({ np4 with size := np4.size + (maxsize - minsize) },
   { p with size := p.size - (maxsize - minsize) })

end BTree

namespace BTree

/-- The descent search loop of BPlusTreeInternalPage::FindKey
(b_plus_tree_internal_page.cpp:56-71). -/
def internalFindKeyGo (p : TreePage) (k : Nat) : Nat → Int → Int → Int
  | 0, left, _ => valueAt p left
  | Nat.succ f, left, right =>
      if left < right then
        let mid := (left + right + 1) / 2
        if k < keyAt p mid then internalFindKeyGo p k f left (mid - 1)
        else internalFindKeyGo p k f mid right
      else valueAt p left

/-- BPlusTreeInternalPage::FindKey: the child page id to descend into. -/
def internalFindKey (p : TreePage) (k : Nat) : Int :=
  if k < keyAt p 1 then valueAt p 0
  else internalFindKeyGo p k (p.size + 2) 1 ((p.size : Int) - 1)

/-- The `while (left < right)` search loop of BPlusTreeInternalPage::Insert
(b_plus_tree_internal_page.cpp:104-113). -/
def internalInsertGo (p : TreePage) (k : Nat) : Nat → Int → Int → Option Int
  | 0, left, _ => some left
  | Nat.succ f, left, right =>
      if left < right then
        let mid := (left + right) / 2
        if k < keyAt p mid then internalInsertGo p k f left (mid - 1)
        else if keyAt p mid < k then internalInsertGo p k f (mid + 1) right
        else none
      else some left

/-- BPlusTreeInternalPage::Insert (b_plus_tree_internal_page.cpp:91-134).
Unlike the leaf Insert, its shift loops run in descending index order. -/
def internalInsert (p : TreePage) (k : Nat) (v : Int) : TreePage × Bool :=
  if k < keyAt p 1 then
    let p2 := shiftRightDesc p (p.size - 1) (p.size - 1)
    let p3 := setValueAt (setKeyAt p2 1 k) 1 v
    ({ p3 with size := p3.size + 1 }, true)
  else
    match internalInsertGo p k (p.size + 2) 1 ((p.size : Int) - 1) with
    | none => (p, false)
    | some left =>
        let l := left.toNat
        if k == keyAt p left then (p, false)
        else if keyAt p left < k then
          let p2 := shiftRightDesc p (p.size - 1) (p.size - 1 - l)
          let p3 := setValueAt (setKeyAt p2 (l + 1) k) (l + 1) v
          ({ p3 with size := p3.size + 1 }, true)
        else
          let p2 := shiftRightDesc p (p.size - 1) (p.size - l)
          let p3 := setValueAt (setKeyAt p2 l k) l v
          ({ p3 with size := p3.size + 1 }, true)

/-- The binary search and gap-closing of BPlusTreeInternalPage::Remove
(b_plus_tree_internal_page.cpp:145-163); separator keys live in slots
1..size-1. -/
def internalRemoveGo (p : TreePage) (k : Nat) : Nat → Int → Int → TreePage
  | 0, _, _ => p
  | Nat.succ f, left, right =>
      if left ≤ right then
        let mid := (left + right) / 2
        if k < keyAt p mid then internalRemoveGo p k f left (mid - 1)
        else if keyAt p mid < k then internalRemoveGo p k f (mid + 1) right
        else
          let p2 := shiftLeftAsc p mid.toNat (p.size - 1 - mid.toNat)
          { p2 with size := p2.size - 1 }
      else p

/-- BPlusTreeInternalPage::Remove. -/
def internalRemove (p : TreePage) (k : Nat) : TreePage :=
  internalRemoveGo p k (p.size + 2) 1 ((p.size : Int) - 1)

/-- BPlusTreeInternalPage::ValueIndex (b_plus_tree_internal_page.cpp:136-143):
index of the child entry holding `v`, or -1; the second argument counts the
remaining iterations (size - i). -/
def valueIndexGo (p : TreePage) (v : Int) : Nat → Nat → Int
  | _, 0 => -1
  | i, Nat.succ c =>
      if valueAt p (i : Int) == v then (i : Int) else valueIndexGo p v (i + 1) c

/-- BPlusTreeInternalPage::ValueIndex. -/
def valueIndex (p : TreePage) (v : Int) : Int := valueIndexGo p v 0 p.size

/-- BPlusTreeInternalPage::GetLeftPage (b_plus_tree_internal_page.cpp:165-171). -/
def getLeftPage (p : TreePage) (v : Int) : Int :=
  let index := valueIndex p v
  if index == 0 then INVALID_PAGE_ID else valueAt p (index - 1)

/-- BPlusTreeInternalPage::GetRightPage (b_plus_tree_internal_page.cpp:173-179). -/
def getRightPage (p : TreePage) (v : Int) : Int :=
  let index := valueIndex p v
  if index == (p.size : Int) - 1 then INVALID_PAGE_ID else valueAt p (index + 1)

/-- BPlusTreeInternalPage::AppendFirst (b_plus_tree_internal_page.cpp:181-189):
shift everything right (descending loop) and place (k, v) at slot 0. -/
def internalAppendFirst (p : TreePage) (k : Nat) (v : Int) : TreePage :=
  let p2 := shiftRightDesc p (p.size - 1) p.size
  let p3 := setValueAt (setKeyAt p2 0 k) 0 v
  { p3 with size := p3.size + 1 }

/-- BPlusTreeInternalPage::PopFirst (b_plus_tree_internal_page.cpp:191-197). -/
def popFirst (p : TreePage) : TreePage :=
  let p2 := shiftLeftAsc p 0 (p.size - 1)
  { p2 with size := p2.size - 1 }

/-- Modelled from the spec: BPlusTreeLeafPage::AppendFirst is declared in
b_plus_tree_leaf_page.h, which is not under src/ (the .cpp does not define
it); per spec §4.3 redistribution moves one entry from the adjacent sibling,
so for a left sibling its last (key, value) becomes this leaf's first entry:
shift right by one and write the pair at slot 0. -/
def leafAppendFirst (p : TreePage) (k : Nat) (v : Int) : TreePage :=
  let p2 := shiftRightDesc p (p.size - 1) p.size
  let p3 := setValueAt (setKeyAt p2 0 k) 0 v
  { p3 with size := p3.size + 1 }

end BTree

namespace BTree

/-- Errors of the embedded tree code: `nullPage` is a dereference of a null
Page* (Lock / GetData on a nullptr), `outOfFuel` marks insufficient recursion
fuel in the model (never reached with the bounds used below). -/
inductive TreeErr where
  | nullPage
  | outOfFuel
deriving DecidableEq, Repr

/-- The page store reachable through the buffer pool, keyed by page id. -/
def pagesLookup : List (Int × TreePage) → Int → Option TreePage
  | [], _ => none
  | (pid, p) :: rest, q => if pid == q then some p else pagesLookup rest q

/-- Write-through of a page into the store (update or append). -/
def pagesStore : List (Int × TreePage) → Int → TreePage → List (Int × TreePage)
  | [], pid, p => [(pid, p)]
  | (q, old) :: rest, pid, p =>
      if q == pid then (q, p) :: rest else (q, old) :: pagesStore rest pid p

/-- Removal of a page from the store (buffer-pool DeletePage of a page in the
deleted-pages set). -/
def pagesErase : List (Int × TreePage) → Int → List (Int × TreePage)
  | [], _ => []
  | (q, old) :: rest, pid => if q == pid then rest else (q, old) :: pagesErase rest pid

/-- BPlusTree state: root_page_id_, leaf_max_size_, internal_max_size_, the
page store and next_page_id of the disk manager's allocator. -/
structure BPlusTree where
  rootPageId : Int
  leafMaxSize : Nat
  internalMaxSize : Nat
  pages : List (Int × TreePage)
  nextPageId : Int
deriving DecidableEq, Repr

/-- BufferPoolManager FetchPage as seen by the tree: nullptr (none) for
INVALID_PAGE_ID (buffer_pool_manager_instance.cpp:99-101), the page
otherwise. -/
def fetchPage (t : BPlusTree) (pid : Int) : Option TreePage :=
  if pid == INVALID_PAGE_ID then none else pagesLookup t.pages pid

/-- Write-through of a page into the tree. -/
def storePage (t : BPlusTree) (p : TreePage) : BPlusTree :=
  { t with pages := pagesStore t.pages p.pageId p }

/-- Physical deletion of a page (AddIntoDeletedPageSet followed by the
buffer-pool DeletePage in FreePagesInTransaction). -/
def deletePageStore (t : BPlusTree) (pid : Int) : BPlusTree :=
  { t with pages := pagesErase t.pages pid }

/-- BPlusTree::CrabingProtocalFetchPage (b_plus_tree.cpp:142-160): fetches the
page and immediately calls Lock(exclusive, page) — a dereference of the Page
pointer, which for the nullptr FetchPage returns on INVALID_PAGE_ID is a
null-pointer dereference, modelled as `TreeErr.nullPage`. -/
def crabingProtocalFetchPage (t : BPlusTree) (pid : Int) : Except TreeErr TreePage :=
  match fetchPage t pid with
  | none => Except.error TreeErr.nullPage
  | some p => Except.ok p

/-- The descent loop of BPlusTree::FindLeafPage (b_plus_tree.cpp:124-138). -/
def findLeafPageGo (t : BPlusTree) (k : Nat) (mostLeft : Bool) :
    Nat → TreePage → Except TreeErr TreePage
  | 0, _ => Except.error TreeErr.outOfFuel
  | Nat.succ f, p =>
      if isLeafPage p then Except.ok p
      else
        let newPid := if mostLeft then valueAt p 0 else internalFindKey p k
        match crabingProtocalFetchPage t newPid with
        | Except.error e => Except.error e
        | Except.ok p2 => findLeafPageGo t k mostLeft f p2

/-- BPlusTree::FindLeafPage (b_plus_tree.cpp:113-140). -/
def findLeafPage (t : BPlusTree) (k : Nat) (mostLeft : Bool) :
    Except TreeErr TreePage :=
  match crabingProtocalFetchPage t t.rootPageId with
  | Except.error e => Except.error e
  | Except.ok p => findLeafPageGo t k mostLeft (t.pages.length + 1) p

/-- BPlusTree::GetValue (b_plus_tree.cpp:49-61): the boolean result together
with the value pushed into the output vector. -/
def getValue (t : BPlusTree) (k : Nat) : Except TreeErr (Bool × Option Int) :=
  match findLeafPage t k false with
  | Except.error e => Except.error e
  | Except.ok leaf =>
      match leafReturnValue leaf k with
      | some v => Except.ok (true, some v)
      | none => Except.ok (false, none)

/-- The copy loop of BPlusTreeInternalPage::Move
(b_plus_tree_internal_page.cpp:77-85): copies slot `i` of `p` into slot
`i - minsize` of the fresh page and re-parents the moved child page in the
store; `count` iterations remain. -/
def internalMoveGo (p : TreePage) (minsize : Nat) :
    BPlusTree → TreePage → Nat → Nat → Except TreeErr (BPlusTree × TreePage)
  | t, np2, _, 0 => Except.ok (t, np2)
  | t, np2, i, Nat.succ c =>
      let np3 := setValueAt (setKeyAt np2 (i - minsize) (keyAt p (i : Int)))
        (i - minsize) (valueAt p (i : Int))
      let childPid := valueAt p (i : Int)
      match fetchPage t childPid with
      | none => Except.error TreeErr.nullPage
      | some child =>
          internalMoveGo p minsize (storePage t { child with parentPageId := np3.pageId })
            np3 (i + 1) c

/-- BPlusTreeInternalPage::Move (b_plus_tree_internal_page.cpp:73-88): the
overflowing internal page holds max_size + 1 entries; slots
[min_size, max_size] move into the fresh sibling. -/
def internalMove (t : BPlusTree) (np p : TreePage) :
    Except TreeErr (BPlusTree × TreePage × TreePage) :=
  let maxsize := np.maxSize
  let minsize := getMinSize np
  match internalMoveGo p minsize t np minsize (maxsize - minsize + 1) with
  | Except.error e => Except.error e
  | Except.ok (t2, np4) =>
      Except.ok (t2, { p with size := p.size - (maxsize - minsize + 1) },
        { np4 with size := np4.size + (maxsize - minsize + 1) })

/-- BPlusTree::Split (b_plus_tree.cpp:183-208): allocates the sibling,
initialises it with the same parent and max size, and moves the upper half
across (linking next_page_id for leaves). Returns the updated tree, the old
page and the new sibling. -/
def splitPage (t : BPlusTree) (p : TreePage) :
    Except TreeErr (BPlusTree × TreePage × TreePage) :=
  let newPid := t.nextPageId
  let t1 := { t with nextPageId := t.nextPageId + 1 }
  if isLeafPage p then
    let np : TreePage := ⟨PageKind.leaf, 0, p.maxSize, p.parentPageId, newPid,
      INVALID_PAGE_ID, []⟩
    let moved := leafMove np p
    let np3 := { moved.1 with nextPageId := p.nextPageId }
    let p3 := { moved.2 with nextPageId := np3.pageId }
    Except.ok (storePage (storePage t1 np3) p3, p3, np3)
  else
    let np : TreePage := ⟨PageKind.internal, 0, p.maxSize, p.parentPageId, newPid,
      INVALID_PAGE_ID, []⟩
    match internalMove t1 np p with
    | Except.error e => Except.error e
    | Except.ok (t2, p2, np2) =>
        Except.ok (storePage (storePage t2 np2) p2, p2, np2)

/-- BPlusTree::InsertIntoParent (b_plus_tree.cpp:209-240). -/
def insertIntoParent (t : BPlusTree) :
    Nat → TreePage → Nat → TreePage → Except TreeErr BPlusTree
  | 0, _, _, _ => Except.error TreeErr.outOfFuel
  | Nat.succ fuel, page, key, newPage =>
      if isRootPage page then
        let newRootPid := t.nextPageId
        let t1 := { t with nextPageId := t.nextPageId + 1 }
        let nr : TreePage := ⟨PageKind.internal, 0, t.internalMaxSize, INVALID_PAGE_ID,
          newRootPid, INVALID_PAGE_ID, []⟩
        let nr2 := setValueAt (setKeyAt (setValueAt nr 0 page.pageId) 1 key) 1
          newPage.pageId
        let nr3 := { nr2 with size := nr2.size + 2 }
        let t2 := storePage (storePage (storePage t1 nr3)
          { page with parentPageId := newRootPid })
          { newPage with parentPageId := newRootPid }
        Except.ok { t2 with rootPageId := newRootPid }
      else
        match fetchPage t page.parentPageId with
        | none => Except.error TreeErr.nullPage
        | some parent =>
            let parent2 := (internalInsert parent key newPage.pageId).1
            let t1 := storePage t parent2
            if parent2.size > parent2.maxSize then
              match splitPage t1 parent2 with
              | Except.error e => Except.error e
              | Except.ok (t2, parentOld, parentNew) =>
                  insertIntoParent t2 fuel parentOld (keyAt parentNew 0) parentNew
            else Except.ok t1

/-- BPlusTree::InsertIntoLeaf (b_plus_tree.cpp:93-111). -/
def insertIntoLeaf (t : BPlusTree) (k : Nat) (v : Int) :
    Except TreeErr (BPlusTree × Bool) :=
  match findLeafPage t k false with
  | Except.error e => Except.error e
  | Except.ok leaf =>
      if leafFindKey leaf k then Except.ok (t, false)
      else
        let ins := leafInsert leaf k v
        let t1 := storePage t ins.1
        if ins.1.maxSize ≤ ins.1.size then
          match splitPage t1 ins.1 with
          | Except.error e => Except.error e
          | Except.ok (t2, leafOld, leafNew) =>
              match insertIntoParent t2 (t2.pages.length + 1) leafOld
                  (keyAt leafNew 0) leafNew with
              | Except.error e => Except.error e
              | Except.ok t3 => Except.ok (t3, ins.2)
        else Except.ok (t1, ins.2)

/-- BPlusTree::Insert (b_plus_tree.cpp:73-92): start a new tree when empty,
otherwise insert into the target leaf. -/
def insert (t : BPlusTree) (k : Nat) (v : Int) : Except TreeErr (BPlusTree × Bool) :=
  if t.rootPageId == INVALID_PAGE_ID then
    let pid := t.nextPageId
    let root0 : TreePage := ⟨PageKind.leaf, 0, t.leafMaxSize, INVALID_PAGE_ID, pid,
      INVALID_PAGE_ID, []⟩
    let root1 := (leafInsert root0 k v).1
    Except.ok (storePage { t with rootPageId := pid, nextPageId := t.nextPageId + 1 }
      root1, true)
  else insertIntoLeaf t k v

/-- BPlusTree::IsEmpty (b_plus_tree.cpp:36). -/
def isEmpty (t : BPlusTree) : Bool := t.rootPageId == INVALID_PAGE_ID

/-- BPlusTree::GetRootPageId (b_plus_tree.cpp:564). -/
def getRootPageId (t : BPlusTree) : Int := t.rootPageId

end BTree

namespace BTree

/-- BPlusTree::Borrow (b_plus_tree.cpp:346-408); `siblingPid` / `pid` identify
sibling_page_data / page_data and `index` is the parent slot DeleteKey passed.
Note the leaf case of the node|sibling direction (lines 377-386) writes the
borrowed pair at slot GetSize() but never increments the node's size, so the
borrowed entry is lost from the tree. -/
def borrow (t : BPlusTree) (siblingPid pid : Int) (index : Int) :
    Except TreeErr BPlusTree :=
  match fetchPage t pid, fetchPage t siblingPid with
  | some page, some sibling =>
      (match fetchPage t page.parentPageId with
      | none => Except.error TreeErr.nullPage
      | some parent =>
          if page.pageId == valueAt parent index then
            if isLeafPage page then
              let lastKey := keyAt sibling ((sibling.size : Int) - 1)
              let lastValue := valueAt sibling ((sibling.size : Int) - 1)
              let sibling2 := leafRemove sibling lastKey
              let page2 := leafAppendFirst page lastKey lastValue
              let parent2 := setKeyAt parent index.toNat lastKey
              Except.ok (storePage (storePage (storePage t sibling2) page2) parent2)
            else
              let lastKey := keyAt sibling ((sibling.size : Int) - 1)
              let lastValue := valueAt sibling ((sibling.size : Int) - 1)
              let sibling2 := internalRemove sibling lastKey
              let page2 := internalAppendFirst page lastKey lastValue
              match fetchPage t lastValue with
              | none => Except.error TreeErr.nullPage
              | some child =>
                  let parent2 := setKeyAt parent index.toNat lastKey
                  Except.ok (storePage (storePage (storePage (storePage t sibling2) page2)
                    { child with parentPageId := page2.pageId }) parent2)
          else
            if isLeafPage page then
              let firstKey := keyAt sibling 0
              let firstValue := valueAt sibling 0
              let sibling2 := leafRemove sibling firstKey
              let page2 := setValueAt (setKeyAt page page.size firstKey) page.size
                firstValue
              let parent2 := setKeyAt parent index.toNat (keyAt sibling2 0)
              Except.ok (storePage (storePage (storePage t sibling2) page2) parent2)
            else
              let firstKey := keyAt sibling 1
              let firstValue := valueAt sibling 0
              let sibling2 := popFirst sibling
              let page2a := setValueAt (setKeyAt page page.size (keyAt parent index))
                page.size firstValue
              let page2 := { page2a with size := page2a.size + 1 }
              match fetchPage t firstValue with
              | none => Except.error TreeErr.nullPage
              | some child =>
                  let parent2 := setKeyAt parent index.toNat firstKey
                  Except.ok (storePage (storePage (storePage (storePage t sibling2) page2)
                    { child with parentPageId := page2.pageId }) parent2))
  | _, _ => Except.error TreeErr.nullPage

/-- The leaf copy loop of the left-direction BPlusTree::Merge
(b_plus_tree.cpp:420-424). IncreaseSize(1) runs INSIDE the loop, so the target
slot sibling.GetSize() + i advances by two per iteration: stale slots remain
inside the merged region and entries land beyond it. -/
def mergeLeafLoopL (p : TreePage) : TreePage → Nat → Nat → TreePage
  | s, _, 0 => s
  | s, i, Nat.succ c =>
      let s2 := setValueAt (setKeyAt s (s.size + i) (keyAt p (i : Int))) (s.size + i)
        (valueAt p (i : Int))
      mergeLeafLoopL p { s2 with size := s2.size + 1 } (i + 1) c

/-- The leaf copy loop of the right-direction Merge (b_plus_tree.cpp:457-460):
here the size increase correctly follows the loop. -/
def mergeLeafLoopR (s : TreePage) : TreePage → Nat → Nat → TreePage
  | p, _, 0 => p
  | p, i, Nat.succ c =>
      let p2 := setValueAt (setKeyAt p (p.size + i) (keyAt s (i : Int))) (p.size + i)
        (valueAt s (i : Int))
      mergeLeafLoopR s p2 (i + 1) c

/-- The internal copy loop of the left-direction Merge
(b_plus_tree.cpp:430-446): slot 0's key is replaced by the parent separator
and every moved child is re-parented to the sibling. -/
def mergeInternalLoopL (p parent : TreePage) (index : Int) :
    BPlusTree → TreePage → Nat → Nat → Except TreeErr (BPlusTree × TreePage)
  | t, s, _, 0 => Except.ok (t, s)
  | t, s, i, Nat.succ c =>
      let key := if i == 0 then keyAt parent index else keyAt p (i : Int)
      let s2 := setValueAt (setKeyAt s (s.size + i) key) (s.size + i)
        (valueAt p (i : Int))
      match fetchPage t (valueAt p (i : Int)) with
      | none => Except.error TreeErr.nullPage
      | some child =>
          mergeInternalLoopL p parent index
            (storePage t { child with parentPageId := s2.pageId }) s2 (i + 1) c

/-- The internal copy loop of the right-direction Merge
(b_plus_tree.cpp:467-483). -/
def mergeInternalLoopR (s parent : TreePage) (index : Int) :
    BPlusTree → TreePage → Nat → Nat → Except TreeErr (BPlusTree × TreePage)
  | t, p, _, 0 => Except.ok (t, p)
  | t, p, i, Nat.succ c =>
      let key := if i == 0 then keyAt parent index else keyAt s (i : Int)
      let p2 := setValueAt (setKeyAt p (p.size + i) key) (p.size + i)
        (valueAt s (i : Int))
      match fetchPage t (valueAt s (i : Int)) with
      | none => Except.error TreeErr.nullPage
      | some child =>
          mergeInternalLoopR s parent index
            (storePage t { child with parentPageId := p2.pageId }) p2 (i + 1) c

/-- Sibling fetch in DeleteKey (b_plus_tree.cpp:303-316): skipped for
INVALID_PAGE_ID, otherwise a CrabingProtocalFetchPage. -/
def fetchSibling (t : BPlusTree) (pid : Int) : Except TreeErr (Option TreePage) :=
  if pid == INVALID_PAGE_ID then Except.ok none
  else
    match pagesLookup t.pages pid with
    | none => Except.error TreeErr.nullPage
    | some p => Except.ok (some p)

/-- A pending call of the mutually recursive pair DeleteKey / Merge:
`del pid k` is DeleteKey(page `pid`, key `k`); `mrg sPid pid index` is
Merge(sibling `sPid`, page `pid`, parent slot `index`). -/
inductive DelTask where
  | del (pid : Int) (k : Nat)
  | mrg (siblingPid pid : Int) (index : Int)
deriving DecidableEq, Repr

/-- BPlusTree::DeleteKey (b_plus_tree.cpp:269-344) and BPlusTree::Merge
(b_plus_tree.cpp:410-492), which call each other; `fuel` bounds the nesting
(the C++ recursion is bounded by the tree height). -/
def delGo : Nat → BPlusTree → DelTask → Except TreeErr BPlusTree
  | 0, _, _ => Except.error TreeErr.outOfFuel
  | Nat.succ fuel, t, DelTask.del pid k =>
      (match fetchPage t pid with
      | none => Except.error TreeErr.nullPage
      | some p0 =>
          let p1 := if isLeafPage p0 then leafRemove p0 k else internalRemove p0 k
          let t1 := storePage t p1
          let t2 := if isRootPage p1 && p1.size == 0 then
              { t1 with rootPageId := INVALID_PAGE_ID }
            else t1
          if isRootPage p1 && p1.size == 1 && !(isLeafPage p1) then
            let newRootPid := valueAt p1 0
            match fetchPage t2 newRootPid with
            | none => Except.error TreeErr.nullPage
            | some child =>
                Except.ok (deletePageStore
                  { storePage t2 { child with parentPageId := INVALID_PAGE_ID } with
                      rootPageId := newRootPid } pid)
          else if !(isRootPage p1) && p1.size < getMinSize p1 then
            match fetchPage t2 p1.parentPageId with
            | none => Except.error TreeErr.nullPage
            | some parent =>
                let leftPid := getLeftPage parent pid
                let rightPid := getRightPage parent pid
                match fetchSibling t2 leftPid with
                | Except.error e => Except.error e
                | Except.ok leftOpt =>
                    match fetchSibling t2 rightPid with
                    | Except.error e => Except.error e
                    | Except.ok rightOpt =>
                        let maxsize := if isLeafPage p1 then p1.maxSize
                          else p1.maxSize + 1
                        if (match leftOpt with
                            | some l => decide (maxsize ≤ l.size + p1.size)
                            | none => false) then
                          borrow t2 leftPid pid (valueIndex parent pid)
                        else if (match rightOpt with
                            | some r => decide (maxsize ≤ r.size + p1.size)
                            | none => false) then
                          borrow t2 rightPid pid (valueIndex parent rightPid)
                        else if (match leftOpt with
                            | some l => decide (l.size + p1.size < maxsize)
                            | none => false) then
                          delGo fuel t2 (DelTask.mrg leftPid pid (valueIndex parent pid))
                        else if (match rightOpt with
                            | some r => decide (r.size + p1.size < maxsize)
                            | none => false) then
                          delGo fuel t2
                            (DelTask.mrg rightPid pid (valueIndex parent rightPid))
                        else Except.ok t2
          else Except.ok t2)
  | Nat.succ fuel, t, DelTask.mrg siblingPid pid index =>
      match fetchPage t pid, fetchPage t siblingPid with
      | some page, some sibling =>
          (match fetchPage t page.parentPageId with
          | none => Except.error TreeErr.nullPage
          | some parent =>
              if page.pageId == valueAt parent index then
                if isLeafPage page then
                  let sibling2 := mergeLeafLoopL page sibling 0 page.size
                  let sibling3 := { sibling2 with nextPageId := page.nextPageId }
                  let page2 := { page with size := 0 }
                  let t1 := storePage (storePage t sibling3) page2
                  let t2 := deletePageStore t1 page.pageId
                  delGo fuel t2 (DelTask.del parent.pageId (keyAt parent index))
                else
                  match mergeInternalLoopL page parent index t sibling 0 page.size with
                  | Except.error e => Except.error e
                  | Except.ok (t1, sibling2) =>
                      let sibling3 := { sibling2 with size := sibling2.size + page.size }
                      let page2 := { page with size := 0 }
                      let t2 := storePage (storePage t1 sibling3) page2
                      let t3 := deletePageStore t2 page.pageId
                      delGo fuel t3 (DelTask.del parent.pageId (keyAt parent index))
              else
                if isLeafPage page then
                  let page2a := mergeLeafLoopR sibling page 0 sibling.size
                  let page2b := { page2a with size := page2a.size + sibling.size }
                  let page2 := { page2b with nextPageId := sibling.nextPageId }
                  let sibling2 := { sibling with size := 0 }
                  let t1 := storePage (storePage t page2) sibling2
                  let t2 := deletePageStore t1 sibling.pageId
                  delGo fuel t2 (DelTask.del parent.pageId (keyAt parent index))
                else
                  match mergeInternalLoopR sibling parent index t page 0 sibling.size with
                  | Except.error e => Except.error e
                  | Except.ok (t1, page2a) =>
                      let page2 := { page2a with size := page2a.size + sibling.size }
                      let sibling2 := { sibling with size := 0 }
                      let t2 := storePage (storePage t1 page2) sibling2
                      let t3 := deletePageStore t2 sibling.pageId
                      delGo fuel t3 (DelTask.del parent.pageId (keyAt parent index)))
      | _, _ => Except.error TreeErr.nullPage

/-- BPlusTree::Remove (b_plus_tree.cpp:251-267). -/
def removeKey (t : BPlusTree) (k : Nat) : Except TreeErr BPlusTree :=
  if isEmpty t then Except.ok t
  else
    match findLeafPage t k false with
    | Except.error e => Except.error e
    | Except.ok leaf =>
        if !(leafFindKey leaf k) then Except.ok t
        else delGo (2 * t.pages.length + 4) t (DelTask.del leaf.pageId k)

/-- A freshly constructed tree (b_plus_tree.cpp:23-30); page ids are allocated
from 1, page 0 being the reserved header page. -/
def emptyTree (leafMax internalMax : Nat) : BPlusTree :=
  ⟨INVALID_PAGE_ID, leafMax, internalMax, [], 1⟩

/-- Driver: insert the keys in order, each with rid = key, collecting the
boolean results. -/
def insertList : BPlusTree → List Nat → Except TreeErr (BPlusTree × List Bool)
  | t, [] => Except.ok (t, [])
  | t, k :: rest =>
      match insert t k (k : Int) with
      | Except.error e => Except.error e
      | Except.ok (t1, b) =>
          match insertList t1 rest with
          | Except.error e => Except.error e
          | Except.ok (t2, bs) => Except.ok (t2, b :: bs)

/-- Driver: remove the keys in order. -/
def removeList : BPlusTree → List Nat → Except TreeErr BPlusTree
  | t, [] => Except.ok t
  | t, k :: rest =>
      match removeKey t k with
      | Except.error e => Except.error e
      | Except.ok t1 => removeList t1 rest

end BTree

namespace BTree

/-- The keys a page currently exposes: the first `size` slots of its array. -/
def visibleKeys (p : TreePage) : List Nat := (p.arr.take p.size).map Prod.fst

/-- C2: on the empty tree (root_page_id = INVALID_PAGE_ID), GetValue does NOT
return false: FindLeafPage calls CrabingProtocalFetchPage on the invalid root
id, FetchPage returns nullptr and Lock dereferences it — the error branch the
claim rules out. On a nonempty tree a missing key does produce the claimed
false (second conjunct, on the five-key example tree with absent key 35). -/
theorem getValue_empty_tree_null_deref :
    (∀ (k lm im : Nat), getValue (emptyTree lm im) k = Except.error TreeErr.nullPage) ∧
    ((insertList (emptyTree 4 4) [10, 20, 30, 40, 25]).bind
        (fun p => getValue p.1 35) = Except.ok (false, none)) ∧
    ((insertList (emptyTree 4 4) [10, 20, 30, 40, 25]).bind
        (fun p => getValue p.1 25) = Except.ok (true, some 25)) :=
  ⟨fun _ _ _ => rfl, rfl, rfl⟩

/-- C5 counterexample: with leaf_max_size = 4, inserting 10, 20, 30, 40 into
the empty tree DOES split (InsertIntoLeaf splits as soon as size reaches
max_size, b_plus_tree.cpp:102): afterwards the root is an internal page with
separator 30 over two leaves [10, 20] and [30, 40] — not the claimed
"no split". -/
theorem insert_four_keys_already_splits :
    (insertList (emptyTree 4 4) [10, 20, 30, 40]).map (fun p =>
      ((pagesLookup p.1.pages p.1.rootPageId).map
        (fun r => (r.pageKind, keyAt r 1)),
       (pagesLookup p.1.pages 1).map visibleKeys,
       (pagesLookup p.1.pages 2).map visibleKeys)) =
    Except.ok (some (PageKind.internal, 30), some [10, 20], some [30, 40]) := rfl

/-- C5 as amended: the split happens on the fourth insert, when the leaf's
size reaches leaf_max_size = 4: inserting 10, 20, 30, 40 splits the leaf into
[10, 20] and [30, 40] with a new root whose separator key is 30; inserting 25
then goes into the left leaf with no further split, leaving leaves
[10, 20, 25] and [30, 40] under the same separator 30 — the final shape the
claim describes, reached one insert earlier. -/
theorem split_timing_and_final_shape :
    (insertList (emptyTree 4 4) [10, 20, 30, 40]).map (fun p =>
      ((pagesLookup p.1.pages p.1.rootPageId).map (fun r => (r.pageKind, keyAt r 1)),
       (pagesLookup p.1.pages 1).map visibleKeys,
       (pagesLookup p.1.pages 2).map visibleKeys,
       p.2)) =
      Except.ok (some (PageKind.internal, 30), some [10, 20], some [30, 40],
        [true, true, true, true]) ∧
    (insertList (emptyTree 4 4) [10, 20, 30, 40, 25]).map (fun p =>
      ((pagesLookup p.1.pages p.1.rootPageId).map (fun r => (r.pageKind, keyAt r 1)),
       (pagesLookup p.1.pages 1).map visibleKeys,
       (pagesLookup p.1.pages 2).map visibleKeys,
       p.2)) =
      Except.ok (some (PageKind.internal, 30), some [10, 20, 25], some [30, 40],
        [true, true, true, true, true]) :=
  ⟨rfl, rfl⟩

/-- C8: with leaf_max_size = 6, inserting the five distinct keys 10, 20, 30,
40, 15 (all inserts return true) and then removing all five leaves the tree
NON-empty: the ascending shift loop of BPlusTreeLeafPage::Insert duplicates
slot entries when the shift distance is two or more, so the insert of 15
corrupts the leaf to [10, 15, 20, 20, 20], losing 30 and 40; the removes then
drain only what is findable and two stale copies of 20 remain, so
root_page_id stays 1 and is_empty() is false. -/
theorem insert_delete_roundtrip_not_empty :
    (insertList (emptyTree 6 6) [10, 20, 30, 40, 15]).map (fun p => p.2) =
      Except.ok [true, true, true, true, true] ∧
    (insertList (emptyTree 6 6) [10, 20, 30, 40, 15]).map (fun p =>
      (pagesLookup p.1.pages 1).map visibleKeys) =
      Except.ok (some [10, 15, 20, 20, 20]) ∧
    ((insertList (emptyTree 6 6) [10, 20, 30, 40, 15]).bind
        (fun p => removeList p.1 [10, 15, 20, 30, 40])).map
      (fun t => (isEmpty t, t.rootPageId, (pagesLookup t.pages 1).map visibleKeys)) =
      Except.ok (false, 1, some [20, 20]) :=
  ⟨rfl, rfl, rfl⟩

end BTree
